import Mathlib

/-!
Formal model of the music-library domain and its serialization engine
(`main.py`, `utils.py`, `errors.py`).

Modelling conventions:
* Python `timedelta` values are integer microsecond counts (`Int`), the unit
  `timedelta` itself uses; `total_seconds()` is the exact rational value and
  `int(total_seconds())` is truncation toward zero (`Int.tdiv`).
* Python `float` is modelled by `PyFloat`, an arbitrary-precision decimal
  `num / 10 ^ exp`.  Every Python float round-trips exactly through its
  shortest decimal `repr`, which is the only way floats are observed by the
  serialization layer, so the decimal value is the observable content.
* The format-neutral value tree produced by `serialize` is `Tree`; Python
  dicts become insertion-ordered association lists.
* Code that can raise (reconstruction from ill-typed trees, attribute access
  on `None`) is modelled with `Option`: `none` is a raised exception.
* `print` diagnostics are returned as explicit `List String` logs where a
  claim refers to them.
* Python's `set` iterates in an unspecified (per-run reproducible) order; the
  model fixes first-insertion order (`pyDedup`), which realizes one of the
  permitted orders.  All theorems about the resulting lists are stated
  order-insensitively (membership plus `Nodup`).
-/

namespace MusicApp

/-! ### Small Python-semantics helpers -/

/-- Whitespace characters removed by Python's `str.strip()`. -/
def pyWhitespace (c : Char) : Bool :=
  c == ' ' || c == '\t' || c == '\n' || c == '\r' || c == '\x0b' || c == '\x0c'

/-- Python `str.strip()` on a character list. -/
def stripChars (cs : List Char) : List Char :=
  ((cs.dropWhile pyWhitespace).reverse.dropWhile pyWhitespace).reverse

/-- Python `str.strip()`. -/
def pyStrip (s : String) : String :=
  String.mk (stripChars s.toList)

/-- De-duplication keeping the first occurrence of each element.  This models
building a Python `set` from a traversal and listing it: membership and
`Nodup` agree with the set; the (unspecified) iteration order is fixed to
first-insertion order. -/
def pyDedup {α : Type} [DecidableEq α] (xs : List α) : List α :=
  xs.foldl (fun acc x => if x ∈ acc then acc else acc ++ [x]) []

/-- Effective position of Python index `i` in a sequence of length `len`:
negative indices count from the end. -/
def pyIndex (len : Nat) (i : Int) : Int :=
  if i < 0 then i + len else i

/-- Python `list.pop(i)`: an index whose effective position is out of range
raises `IndexError`, modelled as `none`. -/
def pyListPop {α : Type} (xs : List α) (i : Int) : Option (α × List α) :=
  if h : 0 ≤ pyIndex xs.length i ∧ pyIndex xs.length i < (xs.length : Int) then
    some (xs.get ⟨(pyIndex xs.length i).toNat, by omega⟩,
      xs.eraseIdx (pyIndex xs.length i).toNat)
  else
    none

/-- Python list comprehension `[f x for x in xs]` where `f` may raise. -/
def optionMapList {α β : Type} (f : α → Option β) : List α → Option (List β)
  | [] => some []
  | x :: xs =>
    match f x, optionMapList f xs with
    | some y, some ys => some (y :: ys)
    | _, _ => none

/-! ### Floats and the format-neutral value tree -/

/-- Decimal model of a Python float: the value `num / 10 ^ exp`.  Python
floats round-trip exactly through their shortest decimal `repr` (the form in
which the codecs observe them), so an exact decimal models the observable
behavior. -/
structure PyFloat where
  num : Int
  exp : Nat
deriving DecidableEq, Repr

/-- Rational value denoted by a `PyFloat`. -/
def PyFloat.toRat (f : PyFloat) : Rat :=
  (f.num : Rat) / (10 : Rat) ^ f.exp

/-- Format-neutral value tree: scalars, sequences and insertion-ordered
string-keyed mappings, exactly the shapes `serialize` produces and the JSON
codec preserves. -/
inductive Tree where
  | null : Tree
  | bool (b : Bool) : Tree
  | int (n : Int) : Tree
  | str (s : String) : Tree
  | float (f : PyFloat) : Tree
  | list (xs : List Tree) : Tree
  | dict (kvs : List (String × Tree)) : Tree
deriving Repr

/-- Python `dict.get(k)` on the association-list model (keys are unique in
every dict the program builds; the first binding wins). -/
def pyDictGet (kvs : List (String × Tree)) (k : String) : Option Tree :=
  (kvs.find? (fun kv => kv.1 == k)).map (fun kv => kv.2)

def Tree.asStr : Tree → Option String
  | .str s => some s
  | _ => none

def Tree.asBool : Tree → Option Bool
  | .bool b => some b
  | _ => none

def Tree.asInt : Tree → Option Int
  | .int n => some n
  | _ => none

def Tree.asFloat : Tree → Option PyFloat
  | .float f => some f
  | _ => none

def Tree.asList : Tree → Option (List Tree)
  | .list xs => some xs
  | _ => none

def Tree.asDict : Tree → Option (List (String × Tree))
  | .dict kvs => some kvs
  | _ => none

/-- Field read `data[k]` expected to be a string (`data.get(k)` followed by a
use that requires a string; a missing or ill-typed field is a failure). -/
def getStr (kvs : List (String × Tree)) (k : String) : Option String :=
  (pyDictGet kvs k).bind Tree.asStr

/-- Field read expected to be a boolean. -/
def getBool (kvs : List (String × Tree)) (k : String) : Option Bool :=
  (pyDictGet kvs k).bind Tree.asBool

/-- Field read expected to be a float. -/
def getFloat (kvs : List (String × Tree)) (k : String) : Option PyFloat :=
  (pyDictGet kvs k).bind Tree.asFloat

/-- Python `data.get(k, [])` used as a sequence. -/
def getListD (kvs : List (String × Tree)) (k : String) : Option (List Tree) :=
  match pyDictGet kvs k with
  | none => some []
  | some t => t.asList

/-- Python `data.get(k)` used as an optional string (`None` and a missing key
both give `none`). -/
def getOptStr (kvs : List (String × Tree)) (k : String) : Option (Option String) :=
  match pyDictGet kvs k with
  | none => some none
  | some .null => some none
  | some (.str s) => some (some s)
  | some _ => none

/-- Python `data.get(k)` used as an optional float (`start_time`). -/
def getOptFloat (kvs : List (String × Tree)) (k : String) : Option (Option PyFloat) :=
  match pyDictGet kvs k with
  | none => some none
  | some .null => some none
  | some (.float f) => some (some f)
  | some _ => none

/-- Rounding required by `timedelta(seconds=...)` for sub-microsecond floats:
round half to even.  `d` is assumed positive. -/
def roundHalfEven (n d : Int) : Int :=
  let q := Int.fdiv n d
  let r := n - q * d
  if 2 * r < d then q
  else if d < 2 * r then q + 1
  else if q % 2 = 0 then q else q + 1

/-- Microseconds of `timedelta(seconds=v)` for a float `v`. -/
def pyFloatToMicroseconds (f : PyFloat) : Int :=
  if f.exp ≤ 6 then f.num * 10 ^ (6 - f.exp)
  else roundHalfEven f.num (10 ^ (f.exp - 6))

/-- Python `timedelta(seconds=data.get(k, 0))`: a missing key defaults to `0`
seconds, an integer or float number of seconds is converted to microseconds,
anything else raises. -/
def getSecondsD (kvs : List (String × Tree)) (k : String) : Option Int :=
  match pyDictGet kvs k with
  | none => some 0
  | some (.int n) => some (n * 1000000)
  | some (.float f) => some (pyFloatToMicroseconds f)
  | some _ => none

/-- Serialization of an optional string field (`None` becomes JSON `null`). -/
def optStrTree : Option String → Tree
  | none => Tree.null
  | some s => Tree.str s

/-- Serialization of an optional float field. -/
def optFloatTree : Option PyFloat → Tree
  | none => Tree.null
  | some f => Tree.float f

/-! ### Error taxonomy (`errors.py`) -/

/-- Kinds of `DataError` raised by validation (`errors.py`). -/
inductive DataError where
  | emptyValue (field_name : String)
  | invalidType (field_name expected_type actual_type : String)
  | invalidElementType (field_name expected_type : String)
  | customIndex
  | plain (msg : String)
deriving DecidableEq, Repr

/-- Message of `CustomIndexError` (`errors.py`). -/
def customIndexErrorMsg : String := "Ошибка! Такого индекса не существует!"

/-! ### Enumerations -/

inductive TrackGenre where
  | rock | pop | hip_hop | electronic | classic
deriving DecidableEq, Repr

def TrackGenre.value : TrackGenre → String
  | .rock => "rock"
  | .pop => "pop"
  | .hip_hop => "hip-hop"
  | .electronic => "electronic"
  | .classic => "classic"

/-- Enum lookup `TrackGenre(s)`; an unknown value raises. -/
def TrackGenre.ofValue (s : String) : Option TrackGenre :=
  if s = "rock" then some .rock
  else if s = "pop" then some .pop
  else if s = "hip-hop" then some .hip_hop
  else if s = "electronic" then some .electronic
  else if s = "classic" then some .classic
  else none

inductive AudioBookGenre where
  | comedy | horror | triller | roman | novell | tech
deriving DecidableEq, Repr

def AudioBookGenre.value : AudioBookGenre → String
  | .comedy => "comedy"
  | .horror => "horror"
  | .triller => "triller"
  | .roman => "roman"
  | .novell => "novell"
  | .tech => "tech"

def AudioBookGenre.ofValue (s : String) : Option AudioBookGenre :=
  if s = "comedy" then some .comedy
  else if s = "horror" then some .horror
  else if s = "triller" then some .triller
  else if s = "roman" then some .roman
  else if s = "novell" then some .novell
  else if s = "tech" then some .tech
  else none

inductive Permission where
  | view_users | edit_users | ban_users | see_analytics | invite_admins
deriving DecidableEq, Repr

def Permission.value : Permission → String
  | .view_users => "view_users"
  | .edit_users => "edit_users"
  | .ban_users => "ban_users"
  | .see_analytics => "see_analytics"
  | .invite_admins => "invite_admins"

def Permission.ofValue (s : String) : Option Permission :=
  if s = "view_users" then some .view_users
  else if s = "edit_users" then some .edit_users
  else if s = "ban_users" then some .ban_users
  else if s = "see_analytics" then some .see_analytics
  else if s = "invite_admins" then some .invite_admins
  else none

inductive RepeatModeValues where
  | none | one | all
deriving DecidableEq, Repr

def RepeatModeValues.value : RepeatModeValues → String
  | .none => "none"
  | .one => "one"
  | .all => "all"

def RepeatModeValues.ofValue (s : String) : Option RepeatModeValues :=
  if s = "none" then some .none
  else if s = "one" then some .one
  else if s = "all" then some .all
  else none

/-- Element parser for a genre value list (`TrackGenre(genre)` per item). -/
def parseTrackGenre (t : Tree) : Option TrackGenre :=
  t.asStr.bind TrackGenre.ofValue

/-- Element parser for an audiobook genre value list. -/
def parseAudioBookGenre (t : Tree) : Option AudioBookGenre :=
  t.asStr.bind AudioBookGenre.ofValue

/-- Element parser for a permission value list. -/
def parsePermission (t : Tree) : Option Permission :=
  t.asStr.bind Permission.ofValue

/-! ### Content entities (`Content`, `Track`, `AudioBookChapter`) -/

/-- Base `Content` entity.  Field names follow the constructor parameters of
`Content.__init__`; `duration_us` is the `timedelta` in microseconds. -/
structure Content where
  content_id : String
  title : String
  duration_us : Int
  creator_id : String
  collaborator_ids : List String
  source_id : Option String
deriving DecidableEq, Repr

/-- Value assigned to the `duration` property: either a `timedelta` or a value
of some other runtime type. -/
inductive DurationValue where
  | td (us : Int)
  | notTd
deriving DecidableEq, Repr

/-- The `Content.duration` setter: a non-`timedelta` or negative value is
rejected with a printed message and the previous value is kept; a
non-negative `timedelta` is stored.  The returned list is the printed log. -/
def Content.set_duration (c : Content) : DurationValue → Content × List String
  | .notTd => (c, ["Значение длительности должно быть типа timedelta."])
  | .td us =>
    if us < 0 then (c, ["Длительность не может быть отрицательной."])
    else ({ c with duration_us := us }, [])

/-- A `Track`.  Field names follow `Track.__init__`. -/
structure Track where
  track_id : String
  title : String
  genres : List TrackGenre
  duration_us : Int
  artist_id : String
  collaborator_ids : List String
  producer_ids : List String
  album_id : Option String
deriving DecidableEq, Repr

/-- An `AudioBookChapter`.  Field names follow `AudioBookChapter.__init__`. -/
structure AudioBookChapter where
  chapter_id : String
  title : String
  duration_us : Int
  author_id : String
  audio_book_id : Option String
  collaborator_ids : List String
  narrator_ids : List String
deriving DecidableEq, Repr

/-- `AudioBookChapter.__init__`: `self._narrator_ids = narrator_ids or
[author_id]` — an empty (or omitted) narrator list is replaced by the author
id. -/
def AudioBookChapter.make (chapter_id title : String) (duration_us : Int)
    (author_id : String) (audio_book_id : Option String)
    (collaborator_ids narrator_ids : List String) : AudioBookChapter :=
  ⟨chapter_id, title, duration_us, author_id, audio_book_id, collaborator_ids,
    if narrator_ids = [] then [author_id] else narrator_ids⟩

/-- The `hasattr(content, "genres")` probe used by `refresh_genres`: a `Track`
has the attribute, an `AudioBookChapter` does not. -/
def Track.genresAttr (t : Track) : Option (List TrackGenre) :=
  some t.genres

/-- An `AudioBookChapter` has no `genres` attribute, so `hasattr` is false. -/
def AudioBookChapter.genresAttr (_ : AudioBookChapter) : Option (List AudioBookGenre) :=
  Option.none

/-! ### Collections (`Album`, `Playlist`, `AudioBook`) -/

/-- An `Album` (`Collection` of tracks).  Field names follow
`Album.__init__`; `collaborator_ids` and `genres` are the derived fields. -/
structure Album where
  album_id : String
  title : String
  tracks : List Track
  artist_id : String
  collaborator_ids : List String
  genres : List TrackGenre
deriving DecidableEq, Repr

/-- `Collection.refresh_collaborator_ids` specialised to `Album`: the
de-duplicated union of every content item's collaborator ids (every `Content`
has the attribute, so the `hasattr` guard always passes). -/
def Album.refresh_collaborator_ids (a : Album) : Album :=
  { a with collaborator_ids := pyDedup (a.tracks.flatMap Track.collaborator_ids) }

/-- `Album.refresh_genres`: de-duplicated union of every track's genres. -/
def Album.refresh_genres (a : Album) : Album :=
  { a with genres := pyDedup (a.tracks.flatMap (fun t => (t.genresAttr).getD [])) }

/-- `Album.update`: refresh collaborator ids, then genres. -/
def Album.update (a : Album) : Album :=
  a.refresh_collaborator_ids.refresh_genres

/-- `Album.__init__`: `self._genres = genres or []` followed by
`refresh_genres()` when the result is empty. -/
def Album.make (album_id title : String) (tracks : List Track) (artist_id : String)
    (collaborator_ids : List String) (genres : List TrackGenre) : Album :=
  let a : Album := ⟨album_id, title, tracks, artist_id, collaborator_ids, genres⟩
  if genres = [] then a.refresh_genres else a

/-- `Collection.pop_content` specialised to `Album`: pop, then `update`; an
out-of-range index prints `CustomIndexError` and returns `None` leaving the
collection unchanged. -/
def Album.pop_content (a : Album) (i : Int) : Option Track × Album × List String :=
  match pyListPop a.tracks i with
  | some (x, rest) => (some x, ({ a with tracks := rest }).update, [])
  | Option.none => (Option.none, a, [customIndexErrorMsg])

/-- A `Playlist`.  `Playlist.__init__` passes no collaborator ids to
`Collection.__init__`, so the field starts empty; it is still a stored,
serialized field. -/
structure Playlist where
  playlist_id : String
  title : String
  tracks : List Track
  owner_id : String
  collaborator_ids : List String
  genres : List TrackGenre
deriving DecidableEq, Repr

def Playlist.refresh_collaborator_ids (p : Playlist) : Playlist :=
  { p with collaborator_ids := pyDedup (p.tracks.flatMap Track.collaborator_ids) }

def Playlist.refresh_genres (p : Playlist) : Playlist :=
  { p with genres := pyDedup (p.tracks.flatMap (fun t => (t.genresAttr).getD [])) }

def Playlist.update (p : Playlist) : Playlist :=
  p.refresh_collaborator_ids.refresh_genres

/-- `Playlist.__init__`: no collaborator ids are forwarded; genres default and
are refreshed when empty. -/
def Playlist.make (playlist_id title : String) (tracks : List Track)
    (owner_id : String) (genres : List TrackGenre) : Playlist :=
  let p : Playlist := ⟨playlist_id, title, tracks, owner_id, [], genres⟩
  if genres = [] then p.refresh_genres else p

def Playlist.pop_content (p : Playlist) (i : Int) : Option Track × Playlist × List String :=
  match pyListPop p.tracks i with
  | some (x, rest) => (some x, ({ p with tracks := rest }).update, [])
  | Option.none => (Option.none, p, [customIndexErrorMsg])

/-- An `AudioBook`.  As with `Playlist`, no collaborator ids are forwarded by
its constructor. -/
structure AudioBook where
  audiobook_id : String
  title : String
  chapters : List AudioBookChapter
  author_id : String
  collaborator_ids : List String
  genres : List AudioBookGenre
deriving DecidableEq, Repr

def AudioBook.refresh_collaborator_ids (b : AudioBook) : AudioBook :=
  { b with collaborator_ids := pyDedup (b.chapters.flatMap AudioBookChapter.collaborator_ids) }

/-- `AudioBook.refresh_genres`: chapters have no `genres` attribute, so the
`hasattr` guard skips every element and the union is empty. -/
def AudioBook.refresh_genres (b : AudioBook) : AudioBook :=
  { b with genres := pyDedup (b.chapters.flatMap (fun c => (c.genresAttr).getD [])) }

def AudioBook.update (b : AudioBook) : AudioBook :=
  b.refresh_collaborator_ids.refresh_genres

def AudioBook.make (audiobook_id title : String) (chapters : List AudioBookChapter)
    (author_id : String) (genres : List AudioBookGenre) : AudioBook :=
  let b : AudioBook := ⟨audiobook_id, title, chapters, author_id, [], genres⟩
  if genres = [] then b.refresh_genres else b

def AudioBook.pop_content (b : AudioBook) (i : Int) :
    Option AudioBookChapter × AudioBook × List String :=
  match pyListPop b.chapters i with
  | some (x, rest) => (some x, ({ b with chapters := rest }).update, [])
  | Option.none => (Option.none, b, [customIndexErrorMsg])

/-! ### Serialization of content and collections -/

/-- `Content.serialize` as inherited by `Track` (base keys plus `genres` and
`producer_ids`); `duration` is `int(total_seconds())`, truncation toward
zero. -/
def Track.serialize (t : Track) : Tree :=
  Tree.dict [
    ("id", .str t.track_id),
    ("title", .str t.title),
    ("duration", .int (t.duration_us.tdiv 1000000)),
    ("creator_id", .str t.artist_id),
    ("collaborator_ids", .list (t.collaborator_ids.map Tree.str)),
    ("source_id", optStrTree t.album_id),
    ("genres", .list (t.genres.map (fun g => Tree.str g.value))),
    ("producer_ids", .list (t.producer_ids.map Tree.str))]

/-- `Track.deserialize`. -/
def Track.deserialize (data : Tree) : Option Track := do
  let kvs ← data.asDict
  let i ← getStr kvs "id"
  let ti ← getStr kvs "title"
  let gs ← (getListD kvs "genres").bind
    (optionMapList parseTrackGenre)
  let dur ← getSecondsD kvs "duration"
  let cr ← getStr kvs "creator_id"
  let co ← (getListD kvs "collaborator_ids").bind (optionMapList Tree.asStr)
  let pr ← (getListD kvs "producer_ids").bind (optionMapList Tree.asStr)
  let al ← getOptStr kvs "source_id"
  pure ⟨i, ti, gs, dur, cr, co, pr, al⟩

/-- `AudioBookChapter.serialize` (base keys plus `narrator_ids`). -/
def AudioBookChapter.serialize (c : AudioBookChapter) : Tree :=
  Tree.dict [
    ("id", .str c.chapter_id),
    ("title", .str c.title),
    ("duration", .int (c.duration_us.tdiv 1000000)),
    ("creator_id", .str c.author_id),
    ("collaborator_ids", .list (c.collaborator_ids.map Tree.str)),
    ("source_id", optStrTree c.audio_book_id),
    ("narrator_ids", .list (c.narrator_ids.map Tree.str))]

/-- `AudioBookChapter.deserialize`; goes through the constructor, so an empty
narrator list is replaced by `[author_id]`. -/
def AudioBookChapter.deserialize (data : Tree) : Option AudioBookChapter := do
  let kvs ← data.asDict
  let i ← getStr kvs "id"
  let ti ← getStr kvs "title"
  let dur ← getSecondsD kvs "duration"
  let au ← getStr kvs "creator_id"
  let co ← (getListD kvs "collaborator_ids").bind (optionMapList Tree.asStr)
  let na ← (getListD kvs "narrator_ids").bind (optionMapList Tree.asStr)
  let ab ← getOptStr kvs "source_id"
  pure (AudioBookChapter.make i ti dur au ab co na)

/-- `Collection.serialize` as inherited by `Album` (base keys plus
`genres`). -/
def Album.serialize (a : Album) : Tree :=
  Tree.dict [
    ("id", .str a.album_id),
    ("title", .str a.title),
    ("contents", .list (a.tracks.map Track.serialize)),
    ("creator_id", .str a.artist_id),
    ("collaborator_ids", .list (a.collaborator_ids.map Tree.str)),
    ("genres", .list (a.genres.map (fun g => Tree.str g.value)))]

/-- `Album.deserialize`: forwards `collaborator_ids` to the constructor. -/
def Album.deserialize (data : Tree) : Option Album := do
  let kvs ← data.asDict
  let i ← getStr kvs "id"
  let ti ← getStr kvs "title"
  let ts ← (getListD kvs "contents").bind (optionMapList Track.deserialize)
  let cr ← getStr kvs "creator_id"
  let co ← (getListD kvs "collaborator_ids").bind (optionMapList Tree.asStr)
  let gs ← (getListD kvs "genres").bind
    (optionMapList parseTrackGenre)
  pure (Album.make i ti ts cr co gs)

def Playlist.serialize (p : Playlist) : Tree :=
  Tree.dict [
    ("id", .str p.playlist_id),
    ("title", .str p.title),
    ("contents", .list (p.tracks.map Track.serialize)),
    ("creator_id", .str p.owner_id),
    ("collaborator_ids", .list (p.collaborator_ids.map Tree.str)),
    ("genres", .list (p.genres.map (fun g => Tree.str g.value)))]

/-- `Playlist.deserialize`: the serialized `collaborator_ids` are read by no
one — `Playlist.__init__` accepts no such parameter, so the reconstructed
playlist always starts with an empty collaborator list. -/
def Playlist.deserialize (data : Tree) : Option Playlist := do
  let kvs ← data.asDict
  let i ← getStr kvs "id"
  let ti ← getStr kvs "title"
  let ts ← (getListD kvs "contents").bind (optionMapList Track.deserialize)
  let ow ← getStr kvs "creator_id"
  let gs ← (getListD kvs "genres").bind
    (optionMapList parseTrackGenre)
  pure (Playlist.make i ti ts ow gs)

def AudioBook.serialize (b : AudioBook) : Tree :=
  Tree.dict [
    ("id", .str b.audiobook_id),
    ("title", .str b.title),
    ("contents", .list (b.chapters.map AudioBookChapter.serialize)),
    ("creator_id", .str b.author_id),
    ("collaborator_ids", .list (b.collaborator_ids.map Tree.str)),
    ("genres", .list (b.genres.map (fun g => Tree.str g.value)))]

/-- `AudioBook.deserialize`: as with `Playlist`, the serialized
`collaborator_ids` are dropped because the constructor takes none. -/
def AudioBook.deserialize (data : Tree) : Option AudioBook := do
  let kvs ← data.asDict
  let i ← getStr kvs "id"
  let ti ← getStr kvs "title"
  let cs ← (getListD kvs "contents").bind (optionMapList AudioBookChapter.deserialize)
  let au ← getStr kvs "creator_id"
  let gs ← (getListD kvs "genres").bind
    (optionMapList parseAudioBookGenre)
  pure (AudioBook.make i ti cs au gs)

/-! ### Polymorphic resolution (`utils.deserialize_union`) -/

/-- A candidate entity type for `deserialize_union`: its `__name__` and, when
`hasattr(cls, "deserialize")` holds, the reconstruction function (which may
itself raise). -/
structure UnionCandidate (α : Type) where
  name : String
  fn : Option (Tree → Option α)

/-- Lookup in the tag table `{cls.__name__: cls for cls in types}`: a later
candidate with the same name overwrites an earlier one. -/
def lookupCandidate {α : Type} (types : List (UnionCandidate α)) (tag : String) :
    Option (UnionCandidate α) :=
  types.reverse.find? (fun c => c.name == tag)

/-- Diagnostic printed for an unknown type tag. -/
def unknownTypeMsg (tag : String) : String :=
  "Неизвестный тип объекта: " ++ tag ++ "."

/-- Diagnostic printed when the candidate lacks a `deserialize` attribute. -/
def missingDeserializeMsg (tag : String) : String :=
  "У объекта " ++ tag ++ " отсутствует атрибут \"deserialize\"."

/-- The string tag of a wrapped record, when `item.get("type")` yields a
string that could match a key of the tag table. -/
def recordTagOf (kvs : List (String × Tree)) : Option String :=
  match pyDictGet kvs "type" with
  | some (.str s) => some s
  | _ => Option.none

/-- `utils.deserialize_union`.  Returns the reconstructed list (or `none`
when the call raises: a record that is not a mapping, or a matched
`deserialize` that raises) together with the printed diagnostics.  Unknown
tags and candidates without `deserialize` drop the record with a diagnostic
and continue. -/
def deserialize_union {α : Type} (data : List Tree) (types : List (UnionCandidate α)) :
    Option (List α) × List String :=
  match data with
  | [] => (some [], [])
  | item :: rest =>
    match item.asDict with
    | Option.none => (Option.none, [])
    | some kvs =>
      match recordTagOf kvs with
      | Option.none =>
        let r := deserialize_union rest types
        (r.1, unknownTypeMsg "None" :: r.2)
      | some tag =>
        match lookupCandidate types tag with
        | Option.none =>
          let r := deserialize_union rest types
          (r.1, unknownTypeMsg tag :: r.2)
        | some c =>
          match c.fn with
          | Option.none =>
            let r := deserialize_union rest types
            (r.1, missingDeserializeMsg tag :: r.2)
          | some f =>
            match f ((pyDictGet kvs "data").getD Tree.null) with
            | Option.none => (Option.none, [])
            | some v =>
              let r := deserialize_union rest types
              match r.1 with
              | some vs => (some (v :: vs), r.2)
              | Option.none => (Option.none, r.2)

/-- Per-record resolution outcome used to specify `deserialize_union`:
`none` = the record is dropped (unknown tag or missing `deserialize`);
`some none` = resolving the record raises (not a mapping, or the matched
`deserialize` raises); `some (some v)` = the record resolves to `v`. -/
def resolveRecord {α : Type} (types : List (UnionCandidate α)) (item : Tree) :
    Option (Option α) :=
  match item.asDict with
  | Option.none => some Option.none
  | some kvs =>
    match recordTagOf kvs with
    | Option.none => Option.none
    | some tag =>
      match lookupCandidate types tag with
      | Option.none => Option.none
      | some c =>
        match c.fn with
        | Option.none => Option.none
        | some f =>
          match f ((pyDictGet kvs "data").getD Tree.null) with
          | Option.none => some Option.none
          | some v => some (some v)

/-- The diagnostic a record would cause to be printed, if any. -/
def recordDiagnostic {α : Type} (types : List (UnionCandidate α)) (item : Tree) :
    Option String :=
  match item.asDict with
  | Option.none => Option.none
  | some kvs =>
    match recordTagOf kvs with
    | Option.none => some (unknownTypeMsg "None")
    | some tag =>
      match lookupCandidate types tag with
      | Option.none => some (unknownTypeMsg tag)
      | some c =>
        match c.fn with
        | Option.none => some (missingDeserializeMsg tag)
        | some _ => Option.none

/-! ### Tagged-union wrapping used by `Artist` and `MusicPlayer` -/

/-- The `{"type": type(x).__name__, "data": x.serialize()}` wrapper. -/
def wrapTagged (name : String) (data : Tree) : Tree :=
  Tree.dict [("type", .str name), ("data", data)]

/-- `type(x).__name__` for a `Track`/`AudioBookChapter` union element. -/
def tcTypeName : Track ⊕ AudioBookChapter → String
  | .inl _ => "Track"
  | .inr _ => "AudioBookChapter"

def tcSerialize : Track ⊕ AudioBookChapter → Tree
  | .inl t => t.serialize
  | .inr c => c.serialize

def tcWrap (x : Track ⊕ AudioBookChapter) : Tree :=
  wrapTagged (tcTypeName x) (tcSerialize x)

/-- Candidates `[Track, AudioBookChapter]` passed to `deserialize_union`. -/
def tcCandidates : List (UnionCandidate (Track ⊕ AudioBookChapter)) :=
  [⟨"Track", some (fun d => (Track.deserialize d).map Sum.inl)⟩,
   ⟨"AudioBookChapter", some (fun d => (AudioBookChapter.deserialize d).map Sum.inr)⟩]

/-- `type(x).__name__` for an `Album`/`AudioBook` union element. -/
def aaTypeName : Album ⊕ AudioBook → String
  | .inl _ => "Album"
  | .inr _ => "AudioBook"

def aaSerialize : Album ⊕ AudioBook → Tree
  | .inl a => a.serialize
  | .inr b => b.serialize

def aaWrap (x : Album ⊕ AudioBook) : Tree :=
  wrapTagged (aaTypeName x) (aaSerialize x)

/-- Candidates `[Album, AudioBook]` passed to `deserialize_union`. -/
def aaCandidates : List (UnionCandidate (Album ⊕ AudioBook)) :=
  [⟨"Album", some (fun d => (Album.deserialize d).map Sum.inl)⟩,
   ⟨"AudioBook", some (fun d => (AudioBook.deserialize d).map Sum.inr)⟩]

/-! ### Person-derived entities (`User`, `Artist`, `Admin`) -/

/-- An `Artist`.  The five content lists hold tagged-union elements. -/
structure Artist where
  artist_id : String
  name : String
  email : String
  tracks : List (Track ⊕ AudioBookChapter)
  albums : List (Album ⊕ AudioBook)
  collabed_tracks : List (Track ⊕ AudioBookChapter)
  collabed_albums : List (Album ⊕ AudioBook)
  produced_tracks : List (Track ⊕ AudioBookChapter)
deriving DecidableEq, Repr

def Artist.serialize (ar : Artist) : Tree :=
  Tree.dict [
    ("id", .str ar.artist_id),
    ("name", .str ar.name),
    ("email", .str ar.email),
    ("tracks", .list (ar.tracks.map tcWrap)),
    ("albums", .list (ar.albums.map aaWrap)),
    ("collabed_tracks", .list (ar.collabed_tracks.map tcWrap)),
    ("collabed_albums", .list (ar.collabed_albums.map aaWrap)),
    ("produced_tracks", .list (ar.produced_tracks.map tcWrap))]

def Artist.deserialize (data : Tree) : Option Artist := do
  let kvs ← data.asDict
  let ts ← (getListD kvs "tracks").bind (fun xs => (deserialize_union xs tcCandidates).1)
  let als ← (getListD kvs "albums").bind (fun xs => (deserialize_union xs aaCandidates).1)
  let cts ← (getListD kvs "collabed_tracks").bind
    (fun xs => (deserialize_union xs tcCandidates).1)
  let cas ← (getListD kvs "collabed_albums").bind
    (fun xs => (deserialize_union xs aaCandidates).1)
  let pts ← (getListD kvs "produced_tracks").bind
    (fun xs => (deserialize_union xs tcCandidates).1)
  let i ← getStr kvs "id"
  let nm ← getStr kvs "name"
  let em ← getStr kvs "email"
  pure ⟨i, nm, em, ts, als, cts, cas, pts⟩

/-- An `Admin`. -/
structure Admin where
  admin_id : String
  name : String
  email : String
  permissions : List Permission
deriving DecidableEq, Repr

def Admin.serialize (ad : Admin) : Tree :=
  Tree.dict [
    ("id", .str ad.admin_id),
    ("name", .str ad.name),
    ("email", .str ad.email),
    ("permissions", .list (ad.permissions.map (fun p => Tree.str p.value)))]

def Admin.deserialize (data : Tree) : Option Admin := do
  let kvs ← data.asDict
  let i ← getStr kvs "id"
  let nm ← getStr kvs "name"
  let em ← getStr kvs "email"
  let ps ← (getListD kvs "permissions").bind
    (optionMapList parsePermission)
  pure ⟨i, nm, em, ps⟩

/-- A `User`. -/
structure User where
  user_id : String
  name : String
  email : String
  subscribed : Bool
  playlists : List Playlist
  favourite_tracks : List Track
  favourite_albums : List Album
  favourite_artists : List Artist
  favourite_audiobooks : List AudioBook
deriving DecidableEq, Repr

def User.serialize (u : User) : Tree :=
  Tree.dict [
    ("id", .str u.user_id),
    ("name", .str u.name),
    ("email", .str u.email),
    ("subscribed", .bool u.subscribed),
    ("playlists", .list (u.playlists.map Playlist.serialize)),
    ("favourite_tracks", .list (u.favourite_tracks.map Track.serialize)),
    ("favourite_albums", .list (u.favourite_albums.map Album.serialize)),
    ("favourite_artists", .list (u.favourite_artists.map Artist.serialize)),
    ("favourite_audiobooks", .list (u.favourite_audiobooks.map AudioBook.serialize))]

def User.deserialize (data : Tree) : Option User := do
  let kvs ← data.asDict
  let i ← getStr kvs "id"
  let nm ← getStr kvs "name"
  let em ← getStr kvs "email"
  let sub ← getBool kvs "subscribed"
  let pls ← (getListD kvs "playlists").bind (optionMapList Playlist.deserialize)
  let fts ← (getListD kvs "favourite_tracks").bind (optionMapList Track.deserialize)
  let fals ← (getListD kvs "favourite_albums").bind (optionMapList Album.deserialize)
  let fars ← (getListD kvs "favourite_artists").bind (optionMapList Artist.deserialize)
  let fabs ← (getListD kvs "favourite_audiobooks").bind (optionMapList AudioBook.deserialize)
  pure ⟨i, nm, em, sub, pls, fts, fals, fars, fabs⟩

/-! ### Person setters (shared by `User`, `Artist`, `Admin`) -/

/-- A raw value assigned to a string property: either a `str` or a value of
another runtime type (whose type name feeds the error message). -/
inductive PyValue where
  | str (s : String)
  | other (type_name : String)
deriving DecidableEq, Repr

/-- The `person_id` setter: a non-string raises `InvalidTypeError`, a blank
string raises `EmptyValueError`, and any other string is stored. -/
def validatePersonId (v : PyValue) : Except DataError String :=
  match v with
  | .other tn => .error (.invalidType "person_id" "str" tn)
  | .str s => if pyStrip s = "" then .error (.emptyValue "person_id") else .ok s

/-- `validate_str(value, field_name)` from `utils.py`. -/
def validateStr (v : PyValue) (field_name : String) : Except DataError String :=
  match v with
  | .other tn => .error (.invalidType field_name "str" tn)
  | .str s => if pyStrip s = "" then .error (.emptyValue field_name) else .ok s

/-- Email validation from the `Person.email` setter: `validate_str`, then the
value must contain an `@` with a `.` somewhere after the last `@`. -/
def validateEmail (v : PyValue) : Except DataError String :=
  match validateStr v "email" with
  | .error e => .error e
  | .ok s =>
    let afterAt := (s.toList.reverse.takeWhile (fun c => c ≠ '@')).reverse
    if s.toList.contains '@' ∧ afterAt.contains '.' then .ok s
    else .error (.plain ("Некорректный адрес электронной почты: \"" ++ s ++ "\""))

def User.set_person_id (u : User) (v : PyValue) : Except DataError User :=
  (validatePersonId v).map (fun s => { u with user_id := s })

def User.set_name (u : User) (v : PyValue) : Except DataError User :=
  (validateStr v "name").map (fun s => { u with name := s })

def User.set_email (u : User) (v : PyValue) : Except DataError User :=
  (validateEmail v).map (fun s => { u with email := s })

def Artist.set_person_id (ar : Artist) (v : PyValue) : Except DataError Artist :=
  (validatePersonId v).map (fun s => { ar with artist_id := s })

def Artist.set_name (ar : Artist) (v : PyValue) : Except DataError Artist :=
  (validateStr v "name").map (fun s => { ar with name := s })

def Artist.set_email (ar : Artist) (v : PyValue) : Except DataError Artist :=
  (validateEmail v).map (fun s => { ar with email := s })

def Admin.set_person_id (ad : Admin) (v : PyValue) : Except DataError Admin :=
  (validatePersonId v).map (fun s => { ad with admin_id := s })

def Admin.set_name (ad : Admin) (v : PyValue) : Except DataError Admin :=
  (validateStr v "name").map (fun s => { ad with name := s })

def Admin.set_email (ad : Admin) (v : PyValue) : Except DataError Admin :=
  (validateEmail v).map (fun s => { ad with email := s })

/-! ### MusicPlayer -/

/-- A `MusicPlayer`.  `current_track` and `current_playlist` follow the
constructor annotations (`Optional[Track]`, `Optional[Playlist]`);
`current_track_position` is a `timedelta` in microseconds; `start_time` a
float timestamp or `None`. -/
structure MusicPlayer where
  music_player_id : String
  user : User
  current_track : Option Track
  current_playlist : Option Playlist
  is_playing : Bool
  volume : PyFloat
  current_track_position_us : Int
  shuffle_mode : Bool
  repeat_mode : RepeatModeValues
  playback_speed : PyFloat
  history : List (Track ⊕ AudioBookChapter)
  start_time : Option PyFloat
deriving DecidableEq, Repr

/-- CPython `min(a, b)`: keeps `a` unless `b` compares strictly smaller. -/
def pyMin (a b : PyFloat) : PyFloat :=
  if b.toRat < a.toRat then b else a

/-- CPython `max(a, b)`: keeps `a` unless `b` compares strictly larger. -/
def pyMax (a b : PyFloat) : PyFloat :=
  if a.toRat < b.toRat then b else a

/-- The float literal `0.0`. -/
def pyFloatZero : PyFloat := ⟨0, 1⟩

/-- The float literal `1.0`. -/
def pyFloatOne : PyFloat := ⟨10, 1⟩

/-- `MusicPlayer.set_volume`: store `max(0.0, min(1.0, value))`. -/
def MusicPlayer.set_volume (p : MusicPlayer) (value : PyFloat) : MusicPlayer :=
  { p with volume := pyMax pyFloatZero (pyMin pyFloatOne value) }

/-- The track `next_track` works from: the current track when it occurs in
the playlist, else `playlist[0]` (the source re-assigns `_current_track`). -/
def reanchoredCurrent (ct : Option Track) (tracks : List Track) (t0 : Track) : Track :=
  match ct with
  | some t => if t ∈ tracks then t else t0
  | Option.none => t0

/-- The index `next_track` works from: `playlist.index(current)` for a
current track occurring in the playlist, else `0`. -/
def reanchoredIndex (ct : Option Track) (tracks : List Track) : Nat :=
  match ct with
  | some t => if t ∈ tracks then tracks.indexOf t else 0
  | Option.none => 0

/-- `MusicPlayer.next_track`.  `now` is the wall-clock time `play` records;
`pick` resolves `random.choice` when shuffle is on (an arbitrary choice of a
valid index).  Mirrors the source: an empty or missing playlist is a no-op;
the current track is re-anchored to index 0 when absent from the playlist;
shuffle picks any track, then repeat-one overrides the pick with the current
track; with repeat-mode `none` on the last index the player stops; otherwise
the current track is appended to the history and the picked track plays. -/
def MusicPlayer.next_track (p : MusicPlayer) (now : PyFloat) (pick : Nat) : MusicPlayer :=
  match p.current_playlist with
  | Option.none => p
  | some pl =>
    match pl.tracks with
    | [] => p
    | t0 :: _ =>
      let tracks := pl.tracks
      let cur : Track := reanchoredCurrent p.current_track tracks t0
      let current_index : Nat := reanchoredIndex p.current_track tracks
      let chosen : Track :=
        if p.shuffle_mode then tracks.getD (pick % tracks.length) t0
        else tracks.getD ((current_index + 1) % tracks.length) t0
      let nxt : Track := if p.repeat_mode = .one then cur else chosen
      if p.repeat_mode = .none ∧ current_index = tracks.length - 1 then
        { p with current_track := some cur, is_playing := false,
                 current_track_position_us := 0 }
      else
        { p with current_track := some nxt, is_playing := true,
                 start_time := some now,
                 history := p.history ++ [Sum.inl cur] }

/-- `MusicPlayer.serialize`: calls `.serialize()` on `current_track` and
`current_playlist` unconditionally, so it raises (`none`) when either is
`None`. -/
def MusicPlayer.serialize (p : MusicPlayer) : Option Tree := do
  let ct ← p.current_track
  let pl ← p.current_playlist
  pure (Tree.dict [
    ("music_player_id", .str p.music_player_id),
    ("user", p.user.serialize),
    ("current_track", ct.serialize),
    ("current_playlist", pl.serialize),
    ("is_playing", .bool p.is_playing),
    ("volume", .float p.volume),
    ("current_track_position", .float ⟨p.current_track_position_us, 6⟩),
    ("shuffle_mode", .bool p.shuffle_mode),
    ("repeat_mode", .str p.repeat_mode.value),
    ("playback_speed", .float p.playback_speed),
    ("history", .list (p.history.map tcWrap)),
    ("start_time", optFloatTree p.start_time)])

def MusicPlayer.deserialize (data : Tree) : Option MusicPlayer := do
  let kvs ← data.asDict
  let hist ← (getListD kvs "history").bind
    (fun xs => (deserialize_union xs tcCandidates).1)
  let i ← getStr kvs "music_player_id"
  let u ← User.deserialize ((pyDictGet kvs "user").getD Tree.null)
  let ct ← Track.deserialize ((pyDictGet kvs "current_track").getD Tree.null)
  let pl ← Playlist.deserialize ((pyDictGet kvs "current_playlist").getD Tree.null)
  let ip ← getBool kvs "is_playing"
  let vol ← getFloat kvs "volume"
  let pos ← getSecondsD kvs "current_track_position"
  let sh ← getBool kvs "shuffle_mode"
  let rm ← (getStr kvs "repeat_mode").bind RepeatModeValues.ofValue
  let sp ← getFloat kvs "playback_speed"
  let st ← getOptFloat kvs "start_time"
  pure ⟨i, u, some ct, some pl, ip, vol, pos, sh, rm, sp, hist, st⟩

/-! ### JSON scalar literals (the `json.dumps`/`json.loads` text layer used by
the XML codec for leaf values).

Strings are escaped for `"` and `\`; `json.dumps` would additionally escape
control characters, which the model keeps raw — the textual byte sequence
differs there but the decoded value does not.  Floats are rendered as exact
decimals (see `PyFloat`). -/

def digitChar (d : Nat) : Char := Char.ofNat (48 + d)

def charDigitVal (c : Char) : Nat := c.toNat - 48

def isDigitChar (c : Char) : Bool := 48 ≤ c.toNat && c.toNat ≤ 57

/-- Little-endian decimal digits, by fuel (`fuel ≥ n` suffices). -/
def natDigitsAux : Nat → Nat → List Nat
  | 0, _ => []
  | _ + 1, 0 => []
  | fuel + 1, n + 1 => ((n + 1) % 10) :: natDigitsAux fuel ((n + 1) / 10)

def natDigits (n : Nat) : List Nat := natDigitsAux n n

/-- Decimal digit characters of `n`, most significant first. -/
def natReprChars (n : Nat) : List Char :=
  if n = 0 then ['0'] else (natDigits n).reverse.map digitChar

def natRepr (n : Nat) : String := String.mk (natReprChars n)

/-- Characters of `repr(n)` for an integer. -/
def intReprChars (n : Int) : List Char :=
  if n < 0 then '-' :: natReprChars n.natAbs else natReprChars n.natAbs

def intRepr (n : Int) : String := String.mk (intReprChars n)

/-- Numeric value of a list of decimal digit characters. -/
def digitsVal (cs : List Char) : Nat :=
  Nat.ofDigits 10 ((cs.map charDigitVal).reverse)

/-- Parse a JSON integer literal. -/
def intParse (cs : List Char) : Option Int :=
  match cs with
  | '-' :: ds =>
    if ds ≠ [] ∧ ds.all isDigitChar then some (-(digitsVal ds : Int)) else Option.none
  | ds =>
    if ds ≠ [] ∧ ds.all isDigitChar then some ((digitsVal ds : Int)) else Option.none

/-- Parse a JSON float literal (`digits.digits`, optional sign) into the
decimal float model. -/
def floatParse (cs : List Char) : Option PyFloat :=
  let core : List Char → Option (Nat × Nat) := fun l =>
    let ip := l.takeWhile (fun c => c ≠ '.')
    match l.drop ip.length with
    | '.' :: fp =>
      if ip ≠ [] ∧ fp ≠ [] ∧ ip.all isDigitChar ∧ fp.all isDigitChar then
        some (digitsVal (ip ++ fp), fp.length)
      else Option.none
    | _ => Option.none
  match cs with
  | '-' :: rest => (core rest).map (fun p => ⟨-(p.1 : Int), p.2⟩)
  | _ => (core cs).map (fun p => ⟨(p.1 : Int), p.2⟩)

/-- Characters of `repr(f)` for a float: digits with a decimal point `exp`
places from the right (and a trailing `.0` when `exp = 0`). -/
def floatReprChars (f : PyFloat) : List Char :=
  let l := natReprChars f.num.natAbs
  let padded := List.replicate (f.exp + 1 - l.length) '0' ++ l
  let core :=
    if f.exp = 0 then padded ++ ['.', '0']
    else padded.take (padded.length - f.exp) ++ '.' :: padded.drop (padded.length - f.exp)
  if f.num < 0 then '-' :: core else core

def floatRepr (f : PyFloat) : String := String.mk (floatReprChars f)

/-- JSON string escaping for `"` and `\`. -/
def jsonEscape : List Char → List Char
  | [] => []
  | c :: cs =>
    if c = '"' ∨ c = '\\' then '\\' :: c :: jsonEscape cs else c :: jsonEscape cs

/-- Inverse of `jsonEscape`; fails on a dangling escape, an unknown escape
or a bare quote. -/
def jsonUnescape : List Char → Option (List Char)
  | [] => some []
  | c :: cs =>
    if c = '\\' then
      match cs with
      | [] => Option.none
      | c2 :: cs2 =>
        if c2 = '"' ∨ c2 = '\\' then (jsonUnescape cs2).map (fun l => c2 :: l)
        else Option.none
    else if c = '"' then Option.none
    else (jsonUnescape cs).map (fun l => c :: l)

/-- Parse a JSON string literal. -/
def strParse (cs : List Char) : Option String :=
  if cs.length ≥ 2 ∧ cs.head? = some '"' ∧ cs.getLast? = some '"' then
    (jsonUnescape (cs.drop 1).dropLast).map String.mk
  else Option.none

/-- `json.dumps` on a scalar leaf; `None` is written as empty text (the
`if value is not None else ""` branch of `_serialize_value`).  The container
cases are unreachable: `_serialize_value` recurses into them instead. -/
def jsonDumpsScalar : Tree → String
  | .null => ""
  | .bool true => "true"
  | .bool false => "false"
  | .int n => intRepr n
  | .str s => String.mk ('"' :: (jsonEscape s.toList ++ ['"']))
  | .float f => floatRepr f
  | .list _ => ""
  | .dict _ => ""

/-- `json.loads` restricted to the scalar literals the codec can meet;
`none` is a `JSONDecodeError`. -/
def jsonLoadsScalar (s : String) : Option Tree :=
  if s = "true" then some (.bool true)
  else if s = "false" then some (.bool false)
  else if s = "null" then some Tree.null
  else
    match intParse s.toList with
    | some n => some (.int n)
    | Option.none =>
      match floatParse s.toList with
      | some f => some (.float f)
      | Option.none =>
        match strParse s.toList with
        | some t => some (.str t)
        | Option.none => Option.none

/-- The leaf branch of `_deserialize_element`: strip the text; empty means
`None`; otherwise `json.loads`, falling back to the raw string. -/
def decodeText (text : String) : Tree :=
  if pyStrip text = "" then Tree.null
  else
    match jsonLoadsScalar (pyStrip text) with
    | some v => v
    | Option.none => Tree.str (pyStrip text)

/-- A float is repr-canonical when decoding its rendered text recovers it.
Every value a CPython float can take has this property (its shortest `repr`
parses back to the same float); in the arbitrary-precision decimal model it
pins the representation `⟨num, exp⟩` to the one its own text denotes. -/
def FloatCanonical (f : PyFloat) : Prop :=
  decodeText (floatRepr f) = Tree.float f

/-! ### XML codec (`XMLFileHandler`), element-tree level.

The model works on the element tree: tag, text content and child elements.
Writing the tree out as pretty-printed XML text and parsing it back
preserves this structure (the `strip()` in `_deserialize_element` absorbs
the inserted indentation), so the text file itself is not modelled. -/

structure XmlElement where
  tag : String
  text : String
  children : List XmlElement
deriving Repr

/-- `XMLFileHandler._serialize_value` building the element for one value:
mapping keys become child tags, sequence items become repeated `item`
children, scalars become text content. -/
def xmlSerializeValue (tag : String) : Tree → XmlElement
  | .dict kvs => ⟨tag, "", kvs.attach.map (fun kv => xmlSerializeValue kv.1.1 kv.1.2)⟩
  | .list xs => ⟨tag, "", xs.attach.map (fun x => xmlSerializeValue "item" x.1)⟩
  | t => ⟨tag, jsonDumpsScalar t, []⟩
termination_by t => sizeOf t
decreasing_by
  · rcases kv with ⟨⟨k, v⟩, hkv⟩
    have h1 := List.sizeOf_lt_of_mem hkv
    simp only [Tree.dict.sizeOf_spec, Prod.mk.sizeOf_spec] at h1 ⊢
    omega
  · have h1 := List.sizeOf_lt_of_mem x.2
    simp only [Tree.list.sizeOf_spec]
    omega

/-- Python `data[key] = value` on the association-list dict model: an
existing binding is overwritten in place, a new key is appended. -/
def pyDictSetTree (kvs : List (String × Tree)) (k : String) (v : Tree) :
    List (String × Tree) :=
  if kvs.any (fun kv => kv.1 == k) then
    kvs.map (fun kv => if kv.1 == k then (k, v) else kv)
  else kvs ++ [(k, v)]

/-- Build the dict of `_deserialize_element` by successive `data[key] =
value` assignments. -/
def assocOfPairs (ps : List (String × Tree)) : List (String × Tree) :=
  ps.foldl (fun acc p => pyDictSetTree acc p.1 p.2) []

/-- `XMLFileHandler._deserialize_element`. -/
def xmlDeserializeElement : XmlElement → Tree
  | ⟨_, text, []⟩ => decodeText text
  | ⟨_, _, c :: cs⟩ =>
    if (c :: cs).all (fun ch => ch.tag == "item") then
      Tree.list ((c :: cs).attach.map (fun ch => xmlDeserializeElement ch.1))
    else
      Tree.dict (assocOfPairs ((c :: cs).attach.map
        (fun ch => (ch.1.tag, xmlDeserializeElement ch.1))))
termination_by e => sizeOf e
decreasing_by
  · have h1 := List.sizeOf_lt_of_mem ch.2
    simp only [XmlElement.mk.sizeOf_spec]
    omega
  · have h1 := List.sizeOf_lt_of_mem ch.2
    simp only [XmlElement.mk.sizeOf_spec]
    omega

/-- `XMLFileHandler.save` at the element level: one `item` child of the
`data` root per entity tree. -/
def XMLFileHandler.save (data : List Tree) : XmlElement :=
  ⟨"data", "", data.map (xmlSerializeValue "item")⟩

/-- `XMLFileHandler.load` at the element level: decode every `item` child of
the root (`findall("item")`). -/
def XMLFileHandler.load (root : XmlElement) : List Tree :=
  (root.children.filter (fun e => e.tag == "item")).map xmlDeserializeElement

/-- Trees whose XML encoding is losslessly invertible: no empty sequence or
mapping (both encode as a childless, textless element, which decodes to
`None`), mapping keys unique and not uniformly `item` (uniform `item` keys
decode as a sequence), floats repr-canonical. -/
inductive Tree.XmlSafe : Tree → Prop where
  | null : Tree.XmlSafe .null
  | bool (b : Bool) : Tree.XmlSafe (.bool b)
  | int (n : Int) : Tree.XmlSafe (.int n)
  | str (s : String) : Tree.XmlSafe (.str s)
  | float (f : PyFloat) : FloatCanonical f → Tree.XmlSafe (.float f)
  | list (xs : List Tree) : xs ≠ [] → (∀ x ∈ xs, Tree.XmlSafe x) →
      Tree.XmlSafe (.list xs)
  | dict (kvs : List (String × Tree)) : kvs ≠ [] →
      (kvs.map Prod.fst).Nodup →
      ¬ (∀ kv ∈ kvs, kv.1 = "item") →
      (∀ kv ∈ kvs, Tree.XmlSafe kv.2) →
      Tree.XmlSafe (.dict kvs)

/-! ### Round-trippable entity states (hypotheses of the amended
serialization round-trip; see the round-trip theorems for what forces
each condition) -/

/-- A `Track` survives `deserialize ∘ serialize` exactly when its duration is
a whole number of seconds (`int(total_seconds())` truncates the rest). -/
def Track.Roundtrippable (t : Track) : Prop :=
  (1000000 : Int) ∣ t.duration_us

instance (t : Track) : Decidable t.Roundtrippable := by
  unfold Track.Roundtrippable
  infer_instance

/-- A chapter additionally needs a non-empty narrator list (the constructor
replaces an empty one by `[author_id]`). -/
def AudioBookChapter.Roundtrippable (c : AudioBookChapter) : Prop :=
  (1000000 : Int) ∣ c.duration_us ∧ c.narrator_ids ≠ []

instance (c : AudioBookChapter) : Decidable c.Roundtrippable := by
  unfold AudioBookChapter.Roundtrippable
  infer_instance

/-- An album needs round-trippable tracks, and an empty stored genre list
only when refreshing from its tracks also yields nothing (the constructor
refreshes an empty genre list). -/
def Album.Roundtrippable (a : Album) : Prop :=
  (∀ t ∈ a.tracks, t.Roundtrippable) ∧
  (a.genres = [] → pyDedup (a.tracks.flatMap (fun t => (t.genresAttr).getD [])) = [])

instance (a : Album) : Decidable a.Roundtrippable := by
  unfold Album.Roundtrippable
  infer_instance

/-- A playlist additionally needs an empty collaborator list: its
constructor accepts none, so a non-empty one cannot be reconstructed. -/
def Playlist.Roundtrippable (p : Playlist) : Prop :=
  (∀ t ∈ p.tracks, t.Roundtrippable) ∧
  p.collaborator_ids = [] ∧
  (p.genres = [] → pyDedup (p.tracks.flatMap (fun t => (t.genresAttr).getD [])) = [])

instance (p : Playlist) : Decidable p.Roundtrippable := by
  unfold Playlist.Roundtrippable
  infer_instance

/-- An audiobook needs round-trippable chapters and, like `Playlist`, an
empty collaborator list. -/
def AudioBook.Roundtrippable (b : AudioBook) : Prop :=
  (∀ c ∈ b.chapters, c.Roundtrippable) ∧ b.collaborator_ids = []

instance (b : AudioBook) : Decidable b.Roundtrippable := by
  unfold AudioBook.Roundtrippable
  infer_instance

def tcRoundtrippable : Track ⊕ AudioBookChapter → Prop
  | .inl t => t.Roundtrippable
  | .inr c => c.Roundtrippable

instance (x : Track ⊕ AudioBookChapter) : Decidable (tcRoundtrippable x) := by
  cases x <;> (unfold tcRoundtrippable; infer_instance)

def aaRoundtrippable : Album ⊕ AudioBook → Prop
  | .inl a => a.Roundtrippable
  | .inr b => b.Roundtrippable

instance (x : Album ⊕ AudioBook) : Decidable (aaRoundtrippable x) := by
  cases x <;> (unfold aaRoundtrippable; infer_instance)

def Artist.Roundtrippable (ar : Artist) : Prop :=
  (∀ x ∈ ar.tracks, tcRoundtrippable x) ∧
  (∀ x ∈ ar.albums, aaRoundtrippable x) ∧
  (∀ x ∈ ar.collabed_tracks, tcRoundtrippable x) ∧
  (∀ x ∈ ar.collabed_albums, aaRoundtrippable x) ∧
  (∀ x ∈ ar.produced_tracks, tcRoundtrippable x)

instance (ar : Artist) : Decidable ar.Roundtrippable := by
  unfold Artist.Roundtrippable
  exact @instDecidableAnd _ _ (List.decidableBAll _ _)
    (@instDecidableAnd _ _ (List.decidableBAll _ _)
      (@instDecidableAnd _ _ (List.decidableBAll _ _)
        (@instDecidableAnd _ _ (List.decidableBAll _ _) (List.decidableBAll _ _))))

def User.Roundtrippable (u : User) : Prop :=
  (∀ p ∈ u.playlists, p.Roundtrippable) ∧
  (∀ t ∈ u.favourite_tracks, t.Roundtrippable) ∧
  (∀ a ∈ u.favourite_albums, a.Roundtrippable) ∧
  (∀ ar ∈ u.favourite_artists, ar.Roundtrippable) ∧
  (∀ b ∈ u.favourite_audiobooks, b.Roundtrippable)

instance (u : User) : Decidable u.Roundtrippable := by
  unfold User.Roundtrippable
  infer_instance

/-- Holds of an optional field whose value is present and round-trippable. -/
def optRoundtrippable {α : Type} (P : α → Prop) : Option α → Prop
  | some x => P x
  | Option.none => False

instance {α : Type} (P : α → Prop) [DecidablePred P] (o : Option α) :
    Decidable (optRoundtrippable P o) := by
  cases o <;> (unfold optRoundtrippable; infer_instance)

/-- A `MusicPlayer` needs a present, round-trippable current track and
playlist (`serialize` raises on `None`, and `deserialize` rebuilds both
unconditionally), plus a round-trippable user and history. -/
def MusicPlayer.Roundtrippable (p : MusicPlayer) : Prop :=
  optRoundtrippable Track.Roundtrippable p.current_track ∧
  optRoundtrippable Playlist.Roundtrippable p.current_playlist ∧
  p.user.Roundtrippable ∧
  ∀ x ∈ p.history, tcRoundtrippable x

instance (p : MusicPlayer) : Decidable p.Roundtrippable := by
  unfold MusicPlayer.Roundtrippable
  exact @instDecidableAnd _ _ inferInstance
    (@instDecidableAnd _ _ inferInstance
      (@instDecidableAnd _ _ inferInstance (List.decidableBAll _ _)))

/-! ### Concrete instances used by individual checks -/

def c7_track1 : Track := ⟨"trk1", "T1", [TrackGenre.rock], 1000000, "ar", [], [], Option.none⟩

def c7_track2 : Track := ⟨"trk2", "T2", [TrackGenre.pop], 2000000, "ar", [], [], Option.none⟩

def c7_playlist : Playlist :=
  ⟨"pl", "P", [c7_track1, c7_track2], "u", [], [TrackGenre.rock]⟩

def c7_user : User := ⟨"u", "U", "u@e.x", false, [], [], [], [], []⟩

/-- A player in repeat-one mode on the first of two tracks, empty history. -/
def c7_player : MusicPlayer :=
  ⟨"mp", c7_user, some c7_track1, some c7_playlist, false, ⟨8, 1⟩, 0, false,
    RepeatModeValues.one, ⟨10, 1⟩, [], Option.none⟩

def c4_track : Track := ⟨"trk", "T", [TrackGenre.rock], 1000000, "ar", [], [], Option.none⟩

/-- Wrapped records: a known `Track` tag followed by an unknown `Ghost` tag. -/
def c4_data : List Tree :=
  [wrapTagged "Track" c4_track.serialize,
   wrapTagged "Ghost" (Tree.dict [("id", Tree.str "g")])]

/-- A fully-populated track (whole-second duration), as in the repo demo. -/
def c1_track : Track :=
  ⟨"trk_001", "Midnight Echo", [TrackGenre.electronic, TrackGenre.pop], 222000000,
    "art_001", ["art_002"], ["prod_001", "prod_002"], some "alb_001"⟩

def c1_chapter : AudioBookChapter :=
  ⟨"chp_001", "Глава 1", 1095000000, "art_001", some "abk_001", ["voice_001"],
    ["voice_001", "voice_002"]⟩

def c1_album : Album :=
  ⟨"alb_001", "Synthetic Dreams", [c1_track], "art_001", ["art_002"],
    [TrackGenre.electronic, TrackGenre.pop]⟩

def c1_playlist : Playlist :=
  ⟨"pl_001", "Ночь в неоновом городе", [c1_track], "usr_001", [], [TrackGenre.electronic]⟩

def c1_audiobook : AudioBook :=
  ⟨"abk_001", "Python", [c1_chapter], "art_001", [],
    [AudioBookGenre.tech, AudioBookGenre.comedy]⟩

def c1_artist : Artist :=
  ⟨"art_001", "Neon Pulse", "contact@neonpulse.band",
    [Sum.inl c1_track], [Sum.inl c1_album], [Sum.inr c1_chapter], [Sum.inr c1_audiobook],
    [Sum.inl c1_track]⟩

def c1_admin : Admin :=
  ⟨"adm_001", "Root Admin", "root@musicapp.lv",
    [Permission.view_users, Permission.edit_users]⟩

def c1_user : User :=
  ⟨"usr_001", "Александра Ветрова", "alex.vetrova@example.com", true,
    [c1_playlist], [c1_track], [c1_album], [c1_artist], [c1_audiobook]⟩

def c1_player : MusicPlayer :=
  ⟨"mp_001", c1_user, some c1_track, some c1_playlist, true, ⟨72, 2⟩, 83000000, true,
    RepeatModeValues.all, ⟨125, 2⟩, [Sum.inl c1_track, Sum.inr c1_chapter], some ⟨17, 1⟩⟩

/-- An entity-shaped tree exercising every scalar kind, a non-empty list and
a repr-canonical float. -/
def c2_tree : Tree :=
  Tree.dict [("id", Tree.str "trk_001"),
             ("collaborator_ids", Tree.list [Tree.str "art_002"]),
             ("subscribed", Tree.bool true),
             ("duration", Tree.int 222),
             ("title", Tree.str ""),
             ("source_id", Tree.null),
             ("volume", Tree.float ⟨72, 2⟩)]

/-! ## Theorems -/

/-! ### De-duplication (`pyDedup`) -/

theorem pyDedup_foldl_mem {α : Type} [DecidableEq α] (xs : List α) (acc : List α) (x : α) :
    x ∈ xs.foldl (fun a y => if y ∈ a then a else a ++ [y]) acc ↔ x ∈ acc ∨ x ∈ xs := by
  induction xs generalizing acc with
  | nil => simp
  | cons y ys ih =>
    simp only [List.foldl_cons]
    rw [ih]
    by_cases hy : y ∈ acc
    · simp only [if_pos hy, List.mem_cons]
      constructor
      · rintro (h | h)
        · exact Or.inl h
        · exact Or.inr (Or.inr h)
      · rintro (h | rfl | h)
        · exact Or.inl h
        · exact Or.inl hy
        · exact Or.inr h
    · simp only [if_neg hy, List.mem_append, List.mem_singleton, List.mem_cons]
      tauto

theorem pyDedup_mem {α : Type} [DecidableEq α] (xs : List α) (x : α) :
    x ∈ pyDedup xs ↔ x ∈ xs := by
  unfold pyDedup
  rw [pyDedup_foldl_mem]
  simp

theorem pyDedup_foldl_nodup {α : Type} [DecidableEq α] (xs acc : List α) (h : acc.Nodup) :
    (xs.foldl (fun a y => if y ∈ a then a else a ++ [y]) acc).Nodup := by
  induction xs generalizing acc with
  | nil => simpa using h
  | cons y ys ih =>
    simp only [List.foldl_cons]
    by_cases hy : y ∈ acc
    · rw [if_pos hy]
      exact ih acc h
    · rw [if_neg hy]
      refine ih _ ?_
      simp [List.nodup_append, h, hy]

theorem pyDedup_nodup {α : Type} [DecidableEq α] (xs : List α) : (pyDedup xs).Nodup :=
  pyDedup_foldl_nodup xs [] List.nodup_nil

theorem pyDedup_flatMap_mem {α β : Type} [DecidableEq β] (xs : List α) (f : α → List β)
    (b : β) : b ∈ pyDedup (xs.flatMap f) ↔ ∃ x ∈ xs, b ∈ f x := by
  rw [pyDedup_mem]
  simp [List.mem_flatMap]

/-! ### C3: `update` recomputes the derived aggregate fields -/

/-- C3: after `update()`, the collaborator ids of an `Album`, `Playlist` or
`AudioBook` are, as a set (no duplicates, order irrelevant), the union of
every content item's collaborator ids; the genre field is recomputed the same
way from each content item's own genre attribute (a chapter has none, so an
`AudioBook` aggregates empty genre sets). -/
theorem update_recomputes_aggregates :
    (∀ a : Album,
      (∀ s, s ∈ a.update.collaborator_ids ↔ ∃ t ∈ a.tracks, s ∈ t.collaborator_ids) ∧
      a.update.collaborator_ids.Nodup ∧
      (∀ g, g ∈ a.update.genres ↔ ∃ t ∈ a.tracks, g ∈ t.genres) ∧
      a.update.genres.Nodup) ∧
    (∀ p : Playlist,
      (∀ s, s ∈ p.update.collaborator_ids ↔ ∃ t ∈ p.tracks, s ∈ t.collaborator_ids) ∧
      p.update.collaborator_ids.Nodup ∧
      (∀ g, g ∈ p.update.genres ↔ ∃ t ∈ p.tracks, g ∈ t.genres) ∧
      p.update.genres.Nodup) ∧
    (∀ b : AudioBook,
      (∀ s, s ∈ b.update.collaborator_ids ↔ ∃ c ∈ b.chapters, s ∈ c.collaborator_ids) ∧
      b.update.collaborator_ids.Nodup ∧
      (∀ g, g ∈ b.update.genres ↔ ∃ c ∈ b.chapters, g ∈ (c.genresAttr).getD []) ∧
      b.update.genres.Nodup) := by
  refine ⟨fun a => ⟨?_, ?_, ?_, ?_⟩, fun p => ⟨?_, ?_, ?_, ?_⟩, fun b => ⟨?_, ?_, ?_, ?_⟩⟩ <;>
    simp [Album.update, Album.refresh_collaborator_ids, Album.refresh_genres,
      Playlist.update, Playlist.refresh_collaborator_ids, Playlist.refresh_genres,
      AudioBook.update, AudioBook.refresh_collaborator_ids, AudioBook.refresh_genres,
      pyDedup_flatMap_mem, pyDedup_nodup, Track.genresAttr]

/-! ### C5: `pop_content` on an out-of-range index -/

theorem pyListPop_out_of_range {α : Type} (xs : List α) (i : Int)
    (h : i < -(xs.length : Int) ∨ (xs.length : Int) ≤ i) : pyListPop xs i = Option.none := by
  have hno : ¬ (0 ≤ pyIndex xs.length i ∧ pyIndex xs.length i < (xs.length : Int)) := by
    unfold pyIndex
    omega
  unfold pyListPop
  rw [dif_neg hno]

/-- C5: for every collection and every out-of-range index (in particular any
index on an empty collection), `pop_content` returns `None` together with the
`CustomIndexError` diagnostic and leaves the collection — contents and
derived fields — unchanged. -/
theorem pop_content_invalid_index :
    (∀ (a : Album) (i : Int), (i < -(a.tracks.length : Int) ∨ (a.tracks.length : Int) ≤ i) →
      a.pop_content i = (Option.none, a, [customIndexErrorMsg])) ∧
    (∀ (p : Playlist) (i : Int), (i < -(p.tracks.length : Int) ∨ (p.tracks.length : Int) ≤ i) →
      p.pop_content i = (Option.none, p, [customIndexErrorMsg])) ∧
    (∀ (b : AudioBook) (i : Int), (i < -(b.chapters.length : Int) ∨ (b.chapters.length : Int) ≤ i) →
      b.pop_content i = (Option.none, b, [customIndexErrorMsg])) := by
  refine ⟨fun a i h => ?_, fun p i h => ?_, fun b i h => ?_⟩ <;>
    simp [Album.pop_content, Playlist.pop_content, AudioBook.pop_content,
      pyListPop_out_of_range _ _ h]

/-- C5 witness: popping index 0 from a collection with zero contents. -/
theorem pop_content_invalid_index_witness :
    (Album.mk "alb" "t" [] "ar" [] []).pop_content 0 =
      (Option.none, Album.mk "alb" "t" [] "ar" [] [], [customIndexErrorMsg]) :=
  pop_content_invalid_index.1 (Album.mk "alb" "t" [] "ar" [] []) 0 (by decide)

/-! ### C6: the duration setter is a non-fatal correction -/

/-- C6: assigning a non-`timedelta` or a negative `timedelta` to
`Content.duration` raises nothing: a message is printed and the stored
duration is unchanged; a non-negative `timedelta` is stored. -/
theorem duration_setter_behavior :
    (∀ c : Content, c.set_duration .notTd =
      (c, ["Значение длительности должно быть типа timedelta."])) ∧
    (∀ (c : Content) (us : Int), us < 0 →
      c.set_duration (.td us) = (c, ["Длительность не может быть отрицательной."])) ∧
    (∀ (c : Content) (us : Int), 0 ≤ us →
      c.set_duration (.td us) = ({ c with duration_us := us }, [])) := by
  refine ⟨fun c => rfl, fun c us h => ?_, fun c us h => ?_⟩
  · simp [Content.set_duration, h]
  · simp [Content.set_duration, not_lt.mpr h]

/-- C6 witness: a negative assignment is dropped with a log, a non-negative
one is stored. -/
theorem duration_setter_behavior_witness :
    (Content.mk "c" "t" 5 "cr" [] Option.none).set_duration (.td (-3)) =
      (Content.mk "c" "t" 5 "cr" [] Option.none,
        ["Длительность не может быть отрицательной."]) ∧
    (Content.mk "c" "t" 5 "cr" [] Option.none).set_duration (.td 7) =
      (Content.mk "c" "t" 7 "cr" [] Option.none, []) :=
  ⟨duration_setter_behavior.2.1 (Content.mk "c" "t" 5 "cr" [] Option.none) (-3) (by decide),
   duration_setter_behavior.2.2 (Content.mk "c" "t" 5 "cr" [] Option.none) 7 (by decide)⟩

/-! ### C9: volume clamping -/

theorem set_volume_toRat (p : MusicPlayer) (v : PyFloat) :
    ((p.set_volume v).volume).toRat = max 0 (min 1 v.toRat) := by
  have hz : pyFloatZero.toRat = 0 := by norm_num [pyFloatZero, PyFloat.toRat]
  have ho : pyFloatOne.toRat = 1 := by norm_num [pyFloatOne, PyFloat.toRat]
  show (pyMax pyFloatZero (pyMin pyFloatOne v)).toRat = max 0 (min 1 v.toRat)
  unfold pyMax pyMin
  split_ifs with h1 h2 h3 <;>
    rw [hz] at * <;> rw [ho] at * <;>
    simp [max_def, min_def] <;> split_ifs <;> first | rfl | linarith

/-- C9: `set_volume(v)` stores `v` clamped into `[0, 1]`; in particular `1.5`
is stored as `1.0` and `-0.2` as `0.0`. -/
theorem set_volume_clamps :
    (∀ (p : MusicPlayer) (v : PyFloat),
      ((p.set_volume v).volume).toRat = max 0 (min 1 v.toRat)) ∧
    (∀ p : MusicPlayer, ((p.set_volume ⟨15, 1⟩).volume).toRat = 1) ∧
    (∀ p : MusicPlayer, ((p.set_volume ⟨-2, 1⟩).volume).toRat = 0) := by
  refine ⟨set_volume_toRat, fun p => ?_, fun p => ?_⟩ <;>
    rw [set_volume_toRat] <;> norm_num [PyFloat.toRat]

/-! ### C10: `MusicPlayer.serialize` requires both current track and playlist -/

/-- C10: `serialize` produces a tree exactly when both `current_track` and
`current_playlist` are present; with either `None` it raises instead. -/
theorem music_player_serialize_requires_current :
    ∀ p : MusicPlayer,
      p.serialize.isSome ↔ (p.current_track.isSome ∧ p.current_playlist.isSome) := by
  intro p
  rcases hct : p.current_track with _ | t <;> rcases hpl : p.current_playlist with _ | pl <;>
    simp [MusicPlayer.serialize, hct, hpl]

/-! ### C8: mutability of `person_id` -/

/-- C8 counterexample: the claim states that after construction no operation
changes the stored `person_id`; assigning to the `person_id` property (an
operation every Person-derived entity inherits) replaces it. -/
theorem person_id_mutated_counterexample :
    (User.mk "usr_a" "Имя" "a@b.c" false [] [] [] [] []).set_person_id (PyValue.str "usr_b") =
      Except.ok (User.mk "usr_b" "Имя" "a@b.c" false [] [] [] [] []) ∧
    "usr_b" ≠ "usr_a" := by
  constructor
  · rfl
  · decide

/-- C8 (amended): `person_id` is validated but not immutable — its setter
replaces the stored id with any non-blank string, on every Person-derived
entity; the other inherited Person operations (the `name` and `email`
setters) never change the stored id. -/
theorem person_id_setter_replaces_id :
    (∀ (u : User) (s : String), pyStrip s ≠ "" →
      u.set_person_id (.str s) = .ok { u with user_id := s }) ∧
    (∀ (u : User) (v : PyValue) (r : User), u.set_name v = .ok r → r.user_id = u.user_id) ∧
    (∀ (u : User) (v : PyValue) (r : User), u.set_email v = .ok r → r.user_id = u.user_id) ∧
    (∀ (ar : Artist) (s : String), pyStrip s ≠ "" →
      ar.set_person_id (.str s) = .ok { ar with artist_id := s }) ∧
    (∀ (ar : Artist) (v : PyValue) (r : Artist), ar.set_name v = .ok r → r.artist_id = ar.artist_id) ∧
    (∀ (ar : Artist) (v : PyValue) (r : Artist), ar.set_email v = .ok r → r.artist_id = ar.artist_id) ∧
    (∀ (ad : Admin) (s : String), pyStrip s ≠ "" →
      ad.set_person_id (.str s) = .ok { ad with admin_id := s }) ∧
    (∀ (ad : Admin) (v : PyValue) (r : Admin), ad.set_name v = .ok r → r.admin_id = ad.admin_id) ∧
    (∀ (ad : Admin) (v : PyValue) (r : Admin), ad.set_email v = .ok r → r.admin_id = ad.admin_id) := by
  refine ⟨fun u s h => ?_, fun u v r hr => ?_, fun u v r hr => ?_,
          fun ar s h => ?_, fun ar v r hr => ?_, fun ar v r hr => ?_,
          fun ad s h => ?_, fun ad v r hr => ?_, fun ad v r hr => ?_⟩
  · simp [User.set_person_id, validatePersonId, h, Except.map]
  · cases hv : validateStr v "name" with
    | error e => simp [User.set_name, hv, Except.map] at hr
    | ok s => simp [User.set_name, hv, Except.map] at hr; rw [← hr]
  · cases hv : validateEmail v with
    | error e => simp [User.set_email, hv, Except.map] at hr
    | ok s => simp [User.set_email, hv, Except.map] at hr; rw [← hr]
  · simp [Artist.set_person_id, validatePersonId, h, Except.map]
  · cases hv : validateStr v "name" with
    | error e => simp [Artist.set_name, hv, Except.map] at hr
    | ok s => simp [Artist.set_name, hv, Except.map] at hr; rw [← hr]
  · cases hv : validateEmail v with
    | error e => simp [Artist.set_email, hv, Except.map] at hr
    | ok s => simp [Artist.set_email, hv, Except.map] at hr; rw [← hr]
  · simp [Admin.set_person_id, validatePersonId, h, Except.map]
  · cases hv : validateStr v "name" with
    | error e => simp [Admin.set_name, hv, Except.map] at hr
    | ok s => simp [Admin.set_name, hv, Except.map] at hr; rw [← hr]
  · cases hv : validateEmail v with
    | error e => simp [Admin.set_email, hv, Except.map] at hr
    | ok s => simp [Admin.set_email, hv, Except.map] at hr; rw [← hr]

/-- C8 witness: a concrete non-blank reassignment and a concrete name update
leaving the id unchanged. -/
theorem person_id_setter_replaces_id_witness :
    (User.mk "usr_1" "N" "n@e.x" false [] [] [] [] []).set_person_id (.str "usr_2") =
      .ok { User.mk "usr_1" "N" "n@e.x" false [] [] [] [] [] with user_id := "usr_2" } ∧
    (User.mk "usr_3" "N" "n@e.x" false [] [] [] [] []).user_id = "usr_3" :=
  ⟨person_id_setter_replaces_id.1 (User.mk "usr_1" "N" "n@e.x" false [] [] [] [] [])
      "usr_2" (by decide),
   (person_id_setter_replaces_id.2.1 (User.mk "usr_3" "N" "n@e.x" false [] [] [] [] [])
      (.str "M") { User.mk "usr_3" "N" "n@e.x" false [] [] [] [] [] with name := "M" } rfl)⟩

/-! ### C7: `next_track` and the history stack -/

/-- C7 counterexample: with repeat-one active, `next_track` still appends the
current track to the (previously empty) history, contradicting the claim
that nothing is pushed when repeat-one is active. -/
theorem next_track_repeat_one_pushes :
    (c7_player.next_track ⟨0, 1⟩ 0).history = [Sum.inl c7_track1] ∧
    c7_player.history = [] ∧
    c7_player.repeat_mode = RepeatModeValues.one := by
  refine ⟨?_, rfl, rfl⟩
  rfl

/-- C7 (amended): `next_track` appends the (re-anchored) current track to the
history whenever the playlist is non-empty and the repeat-`none`-at-last-index
stop case does not apply — in particular it pushes even when repeat-one is
active, where playback stays on the same track. -/
theorem next_track_history :
    ∀ (p : MusicPlayer) (now : PyFloat) (pick : Nat),
      (p.current_playlist = Option.none → p.next_track now pick = p) ∧
      (∀ pl, p.current_playlist = some pl → pl.tracks = [] → p.next_track now pick = p) ∧
      (∀ pl t0 ts, p.current_playlist = some pl → pl.tracks = t0 :: ts →
        ((p.repeat_mode = .none ∧
            reanchoredIndex p.current_track pl.tracks = pl.tracks.length - 1) →
          (p.next_track now pick).history = p.history) ∧
        (¬ (p.repeat_mode = .none ∧
            reanchoredIndex p.current_track pl.tracks = pl.tracks.length - 1) →
          (p.next_track now pick).history =
            p.history ++ [Sum.inl (reanchoredCurrent p.current_track pl.tracks t0)]) ∧
        (p.repeat_mode = .one →
          (p.next_track now pick).history =
            p.history ++ [Sum.inl (reanchoredCurrent p.current_track pl.tracks t0)] ∧
          (p.next_track now pick).current_track =
            some (reanchoredCurrent p.current_track pl.tracks t0))) := by
  intro p now pick
  refine ⟨fun h => ?_, fun pl hpl he => ?_, fun pl t0 ts hpl ht => ⟨fun hstop => ?_, fun hgo => ?_, fun hone => ?_⟩⟩
  · simp [MusicPlayer.next_track, h]
  · simp [MusicPlayer.next_track, hpl, he]
  · rw [MusicPlayer.next_track, hpl]
    rw [ht] at hstop
    simp only [ht]
    rw [if_pos hstop]
  · rw [MusicPlayer.next_track, hpl]
    rw [ht] at hgo
    simp only [ht]
    rw [if_neg hgo]
  · have hgo : ¬ (p.repeat_mode = RepeatModeValues.none ∧
        reanchoredIndex p.current_track (t0 :: ts) = (t0 :: ts).length - 1) := by
      rw [hone]
      rintro ⟨h1, -⟩
      exact absurd h1 (by decide)
    rw [MusicPlayer.next_track, hpl]
    simp only [ht]
    rw [if_neg hgo, if_pos hone]
    exact ⟨rfl, rfl⟩

/-- C7 witness: the amended theorem applied to the concrete repeat-one
player. -/
theorem next_track_history_witness :
    (c7_player.next_track ⟨0, 1⟩ 0).history =
      c7_player.history ++
        [Sum.inl (reanchoredCurrent c7_player.current_track c7_playlist.tracks c7_track1)] ∧
    (c7_player.next_track ⟨0, 1⟩ 0).current_track =
      some (reanchoredCurrent c7_player.current_track c7_playlist.tracks c7_track1) :=
  ((next_track_history c7_player ⟨0, 1⟩ 0).2.2 c7_playlist c7_track1 [c7_track2]
    rfl rfl).2.2 rfl

/-! ### C4: polymorphic resolution -/

/-- C4: `deserialize_union` resolves a batch of tagged records in order:
records whose tag matches a candidate name are reconstructed with that
candidate's `deserialize`; a record with an unknown tag, or whose candidate
lacks a `deserialize` attribute, is dropped with a printed diagnostic and the
batch continues.  The hypothesis excludes records on which resolution raises
(a non-mapping record or a failing matched `deserialize`), where Python
propagates the exception instead. -/
theorem deserialize_union_filters :
    ∀ {α : Type} (data : List Tree) (types : List (UnionCandidate α)),
      (∀ item ∈ data, resolveRecord types item ≠ some Option.none) →
      deserialize_union data types =
        (some (data.filterMap (fun item => (resolveRecord types item).bind id)),
         data.filterMap (recordDiagnostic types)) := by
  intro α data types h
  induction data with
  | nil => rfl
  | cons item rest ih =>
    have hrest : ∀ i ∈ rest, resolveRecord types i ≠ some Option.none :=
      fun i hi => h i (List.mem_cons_of_mem _ hi)
    have hitem : resolveRecord types item ≠ some Option.none :=
      h item (List.mem_cons_self _ _)
    have hih := ih hrest
    cases hd : item.asDict with
    | none =>
      exact absurd (by simp only [resolveRecord, hd]) hitem
    | some kvs =>
      cases ht : recordTagOf kvs with
      | none =>
        simp [deserialize_union, resolveRecord, recordDiagnostic, hd, ht, hih,
          List.filterMap_cons]
      | some tag =>
        cases hc : lookupCandidate types tag with
        | none =>
          simp [deserialize_union, resolveRecord, recordDiagnostic, hd, ht, hc, hih,
            List.filterMap_cons]
        | some c =>
          cases hf : c.fn with
          | none =>
            simp [deserialize_union, resolveRecord, recordDiagnostic, hd, ht, hc, hf, hih,
              List.filterMap_cons]
          | some f =>
            cases hv : f ((pyDictGet kvs "data").getD Tree.null) with
            | none =>
              exact absurd (by simp only [resolveRecord, hd, ht, hc, hf, hv]) hitem
            | some v =>
              simp [deserialize_union, resolveRecord, recordDiagnostic, hd, ht, hc, hf, hv,
                hih, List.filterMap_cons]

/-- C4 witness: a batch with one known `Track` record and one unknown
`Ghost` record resolves to exactly the reconstructed track, and the unknown
record produces one diagnostic. -/
theorem deserialize_union_filters_witness :
    deserialize_union c4_data tcCandidates =
      (some (c4_data.filterMap
        (fun item => (resolveRecord tcCandidates item).bind id)),
       c4_data.filterMap (recordDiagnostic tcCandidates)) :=
  deserialize_union_filters c4_data tcCandidates (by decide)

/-! ### C1: serialization round trips -/

theorem optionMapList_map {α β : Type} (f : β → Option α) (g : α → β) (l : List α)
    (h : ∀ a ∈ l, f (g a) = some a) : optionMapList f (l.map g) = some l := by
  induction l with
  | nil => rfl
  | cons x xs ih =>
    simp only [List.map_cons, optionMapList, h x (List.mem_cons_self _ _),
      ih (fun a ha => h a (List.mem_cons_of_mem _ ha))]

theorem trackGenre_ofValue_value (g : TrackGenre) : TrackGenre.ofValue g.value = some g := by
  cases g <;> rfl

theorem audioBookGenre_ofValue_value (g : AudioBookGenre) :
    AudioBookGenre.ofValue g.value = some g := by
  cases g <;> rfl

theorem permission_ofValue_value (p : Permission) : Permission.ofValue p.value = some p := by
  cases p <;> rfl

theorem repeatMode_ofValue_value (m : RepeatModeValues) :
    RepeatModeValues.ofValue m.value = some m := by
  cases m <;> rfl

theorem strList_roundtrip (l : List String) :
    optionMapList Tree.asStr (l.map Tree.str) = some l :=
  optionMapList_map _ _ l (fun _ _ => rfl)

theorem trackGenreList_roundtrip (l : List TrackGenre) :
    optionMapList parseTrackGenre (l.map (fun g => Tree.str g.value)) = some l :=
  optionMapList_map _ _ l (fun a _ => by
    simp [parseTrackGenre, Tree.asStr, Option.bind, trackGenre_ofValue_value])

theorem audioBookGenreList_roundtrip (l : List AudioBookGenre) :
    optionMapList parseAudioBookGenre (l.map (fun g => Tree.str g.value)) = some l :=
  optionMapList_map _ _ l (fun a _ => by
    simp [parseAudioBookGenre, Tree.asStr, Option.bind, audioBookGenre_ofValue_value])

theorem permissionList_roundtrip (l : List Permission) :
    optionMapList parsePermission (l.map (fun p => Tree.str p.value)) = some l :=
  optionMapList_map _ _ l (fun a _ => by
    simp [parsePermission, Tree.asStr, Option.bind, permission_ofValue_value])

theorem tdiv_seconds_roundtrip (k : Int) :
    (Int.tdiv (1000000 * k) 1000000) * 1000000 = 1000000 * k := by
  rw [Int.mul_tdiv_cancel_left _ (by norm_num)]
  ring

/-- The amended round trip for `Track`: exact when the duration is a whole
number of seconds. -/
theorem track_roundtrip (t : Track) (h : t.Roundtrippable) :
    Track.deserialize t.serialize = some t := by
  obtain ⟨i, ti, gs, us, cr, co, pr, al⟩ := t
  obtain ⟨k, hk⟩ := h
  subst hk
  rcases al with _ | s <;>
    simp [Track.serialize, Track.deserialize, getStr, getListD, getOptStr, getSecondsD,
      pyDictGet, Tree.asDict, Tree.asStr, Tree.asList, optStrTree, Option.bind,
      strList_roundtrip, trackGenreList_roundtrip, tdiv_seconds_roundtrip,
      mul_comm]

/-- The amended round trip for `AudioBookChapter`: whole-second duration and
non-empty narrator list. -/
theorem chapter_roundtrip (c : AudioBookChapter) (h : c.Roundtrippable) :
    AudioBookChapter.deserialize c.serialize = some c := by
  obtain ⟨i, ti, us, au, ab, co, na⟩ := c
  obtain ⟨⟨k, hk⟩, hna⟩ := h
  subst hk
  rcases ab with _ | s <;>
    simp [AudioBookChapter.serialize, AudioBookChapter.deserialize, AudioBookChapter.make,
      getStr, getListD, getOptStr, getSecondsD, pyDictGet, Tree.asDict, Tree.asStr,
      Tree.asList, optStrTree, Option.bind, strList_roundtrip, tdiv_seconds_roundtrip,
      mul_comm, if_neg hna]

theorem flatMap_chapter_genres (cs : List AudioBookChapter) :
    cs.flatMap (fun c => ((c.genresAttr).getD [] : List AudioBookGenre)) = [] := by
  induction cs with
  | nil => rfl
  | cons c cs ih => simp [List.flatMap_cons, AudioBookChapter.genresAttr, ih]

/-- The amended round trip for `Album`: round-trippable tracks, and an empty
stored genre list only when the constructor's refresh also yields nothing. -/
theorem album_roundtrip (a : Album) (h : a.Roundtrippable) :
    Album.deserialize a.serialize = some a := by
  obtain ⟨i, ti, ts, cr, co, gs⟩ := a
  obtain ⟨hts, hgen⟩ := h
  dsimp only at hts hgen
  have h1 : optionMapList Track.deserialize (ts.map Track.serialize) = some ts :=
    optionMapList_map _ _ ts (fun t ht => track_roundtrip t (hts t ht))
  have h2 := strList_roundtrip co
  have h3 := trackGenreList_roundtrip gs
  simp [Album.serialize, Album.deserialize, getStr, getListD, pyDictGet,
    Tree.asDict, Tree.asStr, Tree.asList, Option.bind, h1, h2, h3]
  unfold Album.make
  by_cases hg : gs = []
  · subst hg
    rw [if_pos rfl]
    unfold Album.refresh_genres
    simp [hgen rfl]
  · rw [if_neg hg]

/-- The amended round trip for `Playlist`: additionally the serialized
collaborator list must be empty — the constructor accepts none. -/
theorem playlist_roundtrip (p : Playlist) (h : p.Roundtrippable) :
    Playlist.deserialize p.serialize = some p := by
  obtain ⟨i, ti, ts, ow, co, gs⟩ := p
  obtain ⟨hts, hco, hgen⟩ := h
  dsimp only at hts hco hgen
  subst hco
  have h1 : optionMapList Track.deserialize (ts.map Track.serialize) = some ts :=
    optionMapList_map _ _ ts (fun t ht => track_roundtrip t (hts t ht))
  have h3 := trackGenreList_roundtrip gs
  simp [Playlist.serialize, Playlist.deserialize, getStr, getListD, pyDictGet,
    Tree.asDict, Tree.asStr, Tree.asList, Option.bind, h1, h3]
  unfold Playlist.make
  by_cases hg : gs = []
  · subst hg
    rw [if_pos rfl]
    unfold Playlist.refresh_genres
    simp [hgen rfl]
  · rw [if_neg hg]

/-- The amended round trip for `AudioBook`: round-trippable chapters and an
empty collaborator list; the genre refresh the constructor may run always
yields `[]` because chapters have no genre attribute. -/
theorem audiobook_roundtrip (b : AudioBook) (h : b.Roundtrippable) :
    AudioBook.deserialize b.serialize = some b := by
  obtain ⟨i, ti, cs, au, co, gs⟩ := b
  obtain ⟨hcs, hco⟩ := h
  dsimp only at hcs hco
  subst hco
  have h1 : optionMapList AudioBookChapter.deserialize
      (cs.map AudioBookChapter.serialize) = some cs :=
    optionMapList_map _ _ cs (fun c hc => chapter_roundtrip c (hcs c hc))
  have h3 := audioBookGenreList_roundtrip gs
  simp [AudioBook.serialize, AudioBook.deserialize, getStr, getListD, pyDictGet,
    Tree.asDict, Tree.asStr, Tree.asList, Option.bind, h1, h3]
  unfold AudioBook.make
  by_cases hg : gs = []
  · subst hg
    rw [if_pos rfl]
    unfold AudioBook.refresh_genres
    simp [flatMap_chapter_genres, pyDedup]
  · rw [if_neg hg]

/-- Round trip for `Admin` (no side conditions). -/
theorem admin_roundtrip (ad : Admin) : Admin.deserialize ad.serialize = some ad := by
  obtain ⟨i, nm, em, ps⟩ := ad
  have h1 := permissionList_roundtrip ps
  simp [Admin.serialize, Admin.deserialize, getStr, getListD, pyDictGet,
    Tree.asDict, Tree.asStr, Tree.asList, Option.bind, h1]

/-- Tagged-union round trip for `Track`/`AudioBookChapter` lists: wrapping
with the type name and resolving through `deserialize_union` recovers the
list. -/
theorem deserialize_union_tc (xs : List (Track ⊕ AudioBookChapter))
    (h : ∀ x ∈ xs, tcRoundtrippable x) :
    (deserialize_union (xs.map tcWrap) tcCandidates).1 = some xs := by
  induction xs with
  | nil => rfl
  | cons x xs ih =>
    have hx := h x (List.mem_cons_self _ _)
    have ihh := ih (fun a ha => h a (List.mem_cons_of_mem _ ha))
    simp only [tcCandidates] at ihh
    cases x with
    | inl t =>
      have hrt : Track.deserialize t.serialize = some t := track_roundtrip t hx
      simp [deserialize_union, tcWrap, wrapTagged, tcTypeName, tcSerialize, recordTagOf,
        pyDictGet, Tree.asDict, lookupCandidate, tcCandidates, hrt, ihh]
    | inr c =>
      have hrt : AudioBookChapter.deserialize c.serialize = some c := chapter_roundtrip c hx
      simp [deserialize_union, tcWrap, wrapTagged, tcTypeName, tcSerialize, recordTagOf,
        pyDictGet, Tree.asDict, lookupCandidate, tcCandidates, hrt, ihh]

/-- Tagged-union round trip for `Album`/`AudioBook` lists. -/
theorem deserialize_union_aa (xs : List (Album ⊕ AudioBook))
    (h : ∀ x ∈ xs, aaRoundtrippable x) :
    (deserialize_union (xs.map aaWrap) aaCandidates).1 = some xs := by
  induction xs with
  | nil => rfl
  | cons x xs ih =>
    have hx := h x (List.mem_cons_self _ _)
    have ihh := ih (fun a ha => h a (List.mem_cons_of_mem _ ha))
    simp only [aaCandidates] at ihh
    cases x with
    | inl a =>
      have hrt : Album.deserialize a.serialize = some a := album_roundtrip a hx
      simp [deserialize_union, aaWrap, wrapTagged, aaTypeName, aaSerialize, recordTagOf,
        pyDictGet, Tree.asDict, lookupCandidate, aaCandidates, hrt, ihh]
    | inr b =>
      have hrt : AudioBook.deserialize b.serialize = some b := audiobook_roundtrip b hx
      simp [deserialize_union, aaWrap, wrapTagged, aaTypeName, aaSerialize, recordTagOf,
        pyDictGet, Tree.asDict, lookupCandidate, aaCandidates, hrt, ihh]

/-- The amended round trip for `Artist`: every tagged-union element
round-trippable. -/
theorem artist_roundtrip (ar : Artist) (h : ar.Roundtrippable) :
    Artist.deserialize ar.serialize = some ar := by
  obtain ⟨i, nm, em, ts, als, cts, cas, pts⟩ := ar
  obtain ⟨h1, h2, h3, h4, h5⟩ := h
  dsimp only at h1 h2 h3 h4 h5
  have e1 := deserialize_union_tc ts h1
  have e2 := deserialize_union_aa als h2
  have e3 := deserialize_union_tc cts h3
  have e4 := deserialize_union_aa cas h4
  have e5 := deserialize_union_tc pts h5
  simp [Artist.serialize, Artist.deserialize, getStr, getListD, pyDictGet,
    Tree.asDict, Tree.asStr, Tree.asList, Option.bind, e1, e2, e3, e4, e5]

/-- The amended round trip for `User`: every owned entity round-trippable. -/
theorem user_roundtrip (u : User) (h : u.Roundtrippable) :
    User.deserialize u.serialize = some u := by
  obtain ⟨i, nm, em, sub, pls, fts, fals, fars, fabs⟩ := u
  obtain ⟨h1, h2, h3, h4, h5⟩ := h
  dsimp only at h1 h2 h3 h4 h5
  have e1 : optionMapList Playlist.deserialize (pls.map Playlist.serialize) = some pls :=
    optionMapList_map _ _ pls (fun p hp => playlist_roundtrip p (h1 p hp))
  have e2 : optionMapList Track.deserialize (fts.map Track.serialize) = some fts :=
    optionMapList_map _ _ fts (fun t ht => track_roundtrip t (h2 t ht))
  have e3 : optionMapList Album.deserialize (fals.map Album.serialize) = some fals :=
    optionMapList_map _ _ fals (fun a ha => album_roundtrip a (h3 a ha))
  have e4 : optionMapList Artist.deserialize (fars.map Artist.serialize) = some fars :=
    optionMapList_map _ _ fars (fun a ha => artist_roundtrip a (h4 a ha))
  have e5 : optionMapList AudioBook.deserialize (fabs.map AudioBook.serialize) = some fabs :=
    optionMapList_map _ _ fabs (fun b hb => audiobook_roundtrip b (h5 b hb))
  simp [User.serialize, User.deserialize, getStr, getBool, getListD, pyDictGet,
    Tree.asDict, Tree.asStr, Tree.asBool, Tree.asList, Option.bind, e1, e2, e3, e4, e5]

/-- The amended round trip for `MusicPlayer`: current track and playlist
present and round-trippable, user and history round-trippable. -/
theorem player_roundtrip (p : MusicPlayer) (h : p.Roundtrippable) :
    p.serialize.bind MusicPlayer.deserialize = some p := by
  obtain ⟨pid, u, ct, pl, ip, vol, pos, sh, rm, sp, hist, st⟩ := p
  obtain ⟨hct, hpl, hu, hh⟩ := h
  dsimp only at hct hpl hu hh
  rcases ct with _ | t
  · exact hct.elim
  rcases pl with _ | q
  · exact hpl.elim
  have htr : Track.deserialize t.serialize = some t := track_roundtrip t hct
  have hqr : Playlist.deserialize q.serialize = some q := playlist_roundtrip q hpl
  have hur : User.deserialize u.serialize = some u := user_roundtrip u hu
  have hhist := deserialize_union_tc hist hh
  have hrm := repeatMode_ofValue_value rm
  rcases st with _ | stv <;>
    simp [MusicPlayer.serialize, MusicPlayer.deserialize, getStr, getBool, getFloat,
      getListD, getOptFloat, getSecondsD, pyDictGet, Tree.asDict, Tree.asStr,
      Tree.asBool, Tree.asFloat, Tree.asList, Option.bind, optFloatTree,
      pyFloatToMicroseconds, htr, hqr, hur, hhist, hrm]

/-- C1 (amended): `deserialize ∘ serialize` is the identity on every
supported entity whose state satisfies the named side conditions:
durations are whole seconds (the serializer truncates `total_seconds()` to
`int`); chapter narrator lists are non-empty (the constructor replaces an
empty one by `[author_id]`); `Playlist`/`AudioBook` collaborator lists are
empty (their constructors accept none, so the serialized value is dropped);
a collection whose stored genre list is empty must also refresh to an empty
one (the constructor refreshes empty genre lists); and a `MusicPlayer` must
hold a current track and playlist.  `User`, `Artist` and `MusicPlayer`
require the conditions of every entity they embed; `Admin` round-trips
unconditionally. -/
theorem serialize_deserialize_roundtrip :
    (∀ t : Track, t.Roundtrippable → Track.deserialize t.serialize = some t) ∧
    (∀ c : AudioBookChapter, c.Roundtrippable →
      AudioBookChapter.deserialize c.serialize = some c) ∧
    (∀ a : Album, a.Roundtrippable → Album.deserialize a.serialize = some a) ∧
    (∀ p : Playlist, p.Roundtrippable → Playlist.deserialize p.serialize = some p) ∧
    (∀ b : AudioBook, b.Roundtrippable → AudioBook.deserialize b.serialize = some b) ∧
    (∀ ar : Artist, ar.Roundtrippable → Artist.deserialize ar.serialize = some ar) ∧
    (∀ ad : Admin, Admin.deserialize ad.serialize = some ad) ∧
    (∀ u : User, u.Roundtrippable → User.deserialize u.serialize = some u) ∧
    (∀ mp : MusicPlayer, mp.Roundtrippable →
      mp.serialize.bind MusicPlayer.deserialize = some mp) :=
  ⟨track_roundtrip, chapter_roundtrip, album_roundtrip, playlist_roundtrip,
   audiobook_roundtrip, artist_roundtrip, admin_roundtrip, user_roundtrip,
   player_roundtrip⟩

/-- C1 witness: the amended round trip applied to a fully-populated concrete
entity of every supported type. -/
theorem serialize_deserialize_roundtrip_witness :
    Track.deserialize c1_track.serialize = some c1_track ∧
    AudioBookChapter.deserialize c1_chapter.serialize = some c1_chapter ∧
    Album.deserialize c1_album.serialize = some c1_album ∧
    Playlist.deserialize c1_playlist.serialize = some c1_playlist ∧
    AudioBook.deserialize c1_audiobook.serialize = some c1_audiobook ∧
    Artist.deserialize c1_artist.serialize = some c1_artist ∧
    Admin.deserialize c1_admin.serialize = some c1_admin ∧
    User.deserialize c1_user.serialize = some c1_user ∧
    c1_player.serialize.bind MusicPlayer.deserialize = some c1_player :=
  ⟨serialize_deserialize_roundtrip.1 c1_track (by decide),
   serialize_deserialize_roundtrip.2.1 c1_chapter (by decide),
   serialize_deserialize_roundtrip.2.2.1 c1_album (by decide),
   serialize_deserialize_roundtrip.2.2.2.1 c1_playlist (by decide),
   serialize_deserialize_roundtrip.2.2.2.2.1 c1_audiobook (by decide),
   serialize_deserialize_roundtrip.2.2.2.2.2.1 c1_artist (by decide),
   serialize_deserialize_roundtrip.2.2.2.2.2.2.1 c1_admin,
   serialize_deserialize_roundtrip.2.2.2.2.2.2.2.1 c1_user (by decide),
   serialize_deserialize_roundtrip.2.2.2.2.2.2.2.2 c1_player (by decide)⟩

/-- C1 counterexample: entity states within the claim's scope (no
tagged-union ambiguity anywhere) that the code does not round-trip: a
fractional duration is truncated to whole seconds; a playlist's non-empty
collaborator list is dropped; a chapter's empty narrator list is replaced by
the author id; an album whose stored genre list is empty while its tracks
have genres is reconstructed with the refreshed, non-empty genre list. -/
theorem serialize_roundtrip_counterexample :
    (Track.deserialize (Track.mk "t1" "T" [] 1500000 "a" [] [] Option.none).serialize =
      some (Track.mk "t1" "T" [] 1000000 "a" [] [] Option.none) ∧
      Track.mk "t1" "T" [] 1000000 "a" [] [] Option.none ≠
        Track.mk "t1" "T" [] 1500000 "a" [] [] Option.none) ∧
    (Playlist.deserialize (Playlist.mk "p1" "P" [] "u" ["a"] [TrackGenre.rock]).serialize =
      some (Playlist.mk "p1" "P" [] "u" [] [TrackGenre.rock]) ∧
      Playlist.mk "p1" "P" [] "u" [] [TrackGenre.rock] ≠
        Playlist.mk "p1" "P" [] "u" ["a"] [TrackGenre.rock]) ∧
    (AudioBookChapter.deserialize
        (AudioBookChapter.mk "c1" "C" 0 "au" Option.none [] []).serialize =
      some (AudioBookChapter.mk "c1" "C" 0 "au" Option.none [] ["au"]) ∧
      AudioBookChapter.mk "c1" "C" 0 "au" Option.none [] ["au"] ≠
        AudioBookChapter.mk "c1" "C" 0 "au" Option.none [] []) ∧
    (Album.deserialize
        (Album.mk "a1" "A" [Track.mk "t1" "T" [TrackGenre.rock] 0 "a" [] [] Option.none]
          "ar" [] []).serialize =
      some (Album.mk "a1" "A" [Track.mk "t1" "T" [TrackGenre.rock] 0 "a" [] [] Option.none]
        "ar" [] [TrackGenre.rock]) ∧
      Album.mk "a1" "A" [Track.mk "t1" "T" [TrackGenre.rock] 0 "a" [] [] Option.none]
          "ar" [] [TrackGenre.rock] ≠
        Album.mk "a1" "A" [Track.mk "t1" "T" [TrackGenre.rock] 0 "a" [] [] Option.none]
          "ar" [] []) := by
  refine ⟨⟨?_, by decide⟩, ⟨?_, by decide⟩, ⟨?_, by decide⟩, ⟨?_, by decide⟩⟩ <;> decide

/-! ### C2: scalar text layer lemmas -/

theorem natDigitsAux_ofDigits (fuel n : Nat) (h : n ≤ fuel) :
    Nat.ofDigits 10 (natDigitsAux fuel n) = n := by
  induction fuel generalizing n with
  | zero =>
    interval_cases n
    simp [natDigitsAux]
  | succ f ih =>
    match n with
    | 0 => simp [natDigitsAux]
    | m + 1 =>
      rw [natDigitsAux, Nat.ofDigits_cons, ih _ (by omega)]
      omega

theorem natDigitsAux_lt (fuel n : Nat) : ∀ d ∈ natDigitsAux fuel n, d < 10 := by
  induction fuel generalizing n with
  | zero => simp [natDigitsAux]
  | succ f ih =>
    match n with
    | 0 => simp [natDigitsAux]
    | m + 1 =>
      intro d hd
      rw [natDigitsAux] at hd
      rcases List.mem_cons.mp hd with rfl | h
      · omega
      · exact ih _ d h

theorem natDigits_ofDigits (n : Nat) : Nat.ofDigits 10 (natDigits n) = n :=
  natDigitsAux_ofDigits n n le_rfl

theorem natDigits_lt (n : Nat) : ∀ d ∈ natDigits n, d < 10 :=
  natDigitsAux_lt n n

theorem natDigits_ne_nil (n : Nat) (h : n ≠ 0) : natDigits n ≠ [] := by
  match n, h with
  | m + 1, _ => simp [natDigits, natDigitsAux]

theorem charDigitVal_digitChar (d : Nat) (h : d < 10) : charDigitVal (digitChar d) = d := by
  interval_cases d <;> rfl

theorem isDigitChar_digitChar (d : Nat) (h : d < 10) : isDigitChar (digitChar d) = true := by
  interval_cases d <;> rfl

theorem natReprChars_ne_nil (n : Nat) : natReprChars n ≠ [] := by
  unfold natReprChars
  by_cases h : n = 0
  · simp [h]
  · rw [if_neg h]
    simp only [ne_eq, List.map_eq_nil_iff, List.reverse_eq_nil_iff]
    exact natDigits_ne_nil n h

theorem natReprChars_digits (n : Nat) : ∀ c ∈ natReprChars n, isDigitChar c = true := by
  unfold natReprChars
  by_cases h : n = 0
  · simp only [h, if_pos]
    intro c hc
    simp only [List.mem_singleton] at hc
    subst hc
    rfl
  · rw [if_neg h]
    intro c hc
    rw [List.mem_map] at hc
    obtain ⟨d, hd, rfl⟩ := hc
    exact isDigitChar_digitChar d (natDigits_lt n d (List.mem_reverse.mp hd))

theorem digitsVal_natReprChars (n : Nat) : digitsVal (natReprChars n) = n := by
  unfold natReprChars
  by_cases h : n = 0
  · subst h
    rfl
  · rw [if_neg h]
    unfold digitsVal
    have hmap : (((natDigits n).reverse.map digitChar).map charDigitVal) =
        (natDigits n).reverse := by
      rw [List.map_map]
      conv_rhs => rw [← List.map_id ((natDigits n).reverse)]
      exact List.map_congr_left (fun d hd =>
        charDigitVal_digitChar d (natDigits_lt n d (List.mem_reverse.mp hd)))
    rw [hmap, List.reverse_reverse, natDigits_ofDigits]

theorem intReprChars_mem (n : Int) :
    ∀ c ∈ intReprChars n, isDigitChar c = true ∨ c = '-' := by
  unfold intReprChars
  intro c hc
  by_cases h : n < 0
  · rw [if_pos h] at hc
    rcases List.mem_cons.mp hc with rfl | hm
    · exact Or.inr rfl
    · exact Or.inl (natReprChars_digits _ c hm)
  · rw [if_neg h] at hc
    exact Or.inl (natReprChars_digits _ c hc)

theorem intReprChars_ne_nil (n : Int) : intReprChars n ≠ [] := by
  unfold intReprChars
  by_cases h : n < 0
  · simp [if_pos h]
  · rw [if_neg h]
    exact natReprChars_ne_nil _

theorem mem_of_head? {α : Type} {l : List α} {a : α} (h : l.head? = some a) : a ∈ l := by
  cases l with
  | nil => simp at h
  | cons x xs =>
    simp only [List.head?_cons, Option.some.injEq] at h
    subst h
    exact List.mem_cons_self _ _

theorem mem_of_getLast? {α : Type} {l : List α} {a : α} (h : l.getLast? = some a) :
    a ∈ l := by
  rw [← List.head?_reverse] at h
  exact List.mem_reverse.mp (mem_of_head? h)

theorem dropWhile_eq_self_of_head {cs : List Char}
    (h : ∀ c, cs.head? = some c → pyWhitespace c = false) :
    cs.dropWhile pyWhitespace = cs := by
  cases cs with
  | nil => rfl
  | cons c rest =>
    rw [List.dropWhile_cons, h c rfl]
    simp

theorem stripChars_eq_self {cs : List Char}
    (h1 : ∀ c, cs.head? = some c → pyWhitespace c = false)
    (h2 : ∀ c, cs.getLast? = some c → pyWhitespace c = false) : stripChars cs = cs := by
  unfold stripChars
  rw [dropWhile_eq_self_of_head h1]
  rw [dropWhile_eq_self_of_head (fun c hc => h2 c (by rwa [List.head?_reverse] at hc)),
    List.reverse_reverse]

theorem stripChars_eq_self_of_all {cs : List Char}
    (h : ∀ c ∈ cs, pyWhitespace c = false) : stripChars cs = cs :=
  stripChars_eq_self (fun c hc => h c (mem_of_head? hc))
    (fun c hc => h c (mem_of_getLast? hc))

theorem digit_not_ws (c : Char) (h : isDigitChar c = true) : pyWhitespace c = false := by
  simp only [isDigitChar, Bool.and_eq_true, decide_eq_true_eq] at h
  simp only [pyWhitespace, Bool.or_eq_false_iff, beq_eq_false_iff_ne, ne_eq]
  refine ⟨⟨⟨⟨⟨?_, ?_⟩, ?_⟩, ?_⟩, ?_⟩, ?_⟩ <;>
    (intro he; subst he; revert h; decide)

theorem intReprChars_not_ws (n : Int) : ∀ c ∈ intReprChars n, pyWhitespace c = false := by
  intro c hc
  rcases intReprChars_mem n c hc with h | rfl
  · exact digit_not_ws c h
  · rfl

theorem mk_ne_empty {cs : List Char} (h : cs ≠ []) : String.mk cs ≠ "" := by
  intro he
  exact h (congrArg String.toList he)

theorem mk_cons_ne_of_head (c : Char) (cs : List Char) (t : String) (c0 : Char)
    (cs0 : List Char) (ht : t.toList = c0 :: cs0) (hne : c ≠ c0) :
    String.mk (c :: cs) ≠ t := by
  intro he
  have h2 : c :: cs = c0 :: cs0 := by
    have h3 := congrArg String.toList he
    rwa [ht] at h3
  exact hne (List.cons.injEq c cs c0 cs0 ▸ h2).1

theorem jsonUnescape_escape (cs : List Char) : jsonUnescape (jsonEscape cs) = some cs := by
  induction cs with
  | nil => rfl
  | cons c rest ih =>
    rw [jsonEscape]
    by_cases h : c = '"' ∨ c = '\\'
    · rw [if_pos h]
      simp [jsonUnescape, h, ih]
    · have hq : c ≠ '"' := fun he => h (Or.inl he)
      have hb : c ≠ '\\' := fun he => h (Or.inr he)
      rw [if_neg h, jsonUnescape.eq_def]
      dsimp only
      rw [if_neg hb, if_neg hq, ih]
      rfl

theorem intParse_intReprChars (n : Int) : intParse (intReprChars n) = some n := by
  have hne := natReprChars_ne_nil n.natAbs
  have hdig := natReprChars_digits n.natAbs
  have hval := digitsVal_natReprChars n.natAbs
  have hall : (natReprChars n.natAbs).all isDigitChar = true :=
    List.all_eq_true.mpr hdig
  unfold intReprChars
  by_cases h : n < 0
  · rw [if_pos h]
    rw [intParse.eq_def]
    split
    · rename_i ds heq
      injection heq with h1 h2
      subst h2
      rw [if_pos ⟨hne, hall⟩, Option.some.injEq, hval]
      omega
    · rename_i hnm
      exact (hnm (natReprChars n.natAbs) rfl).elim
  · rw [if_neg h]
    rw [intParse.eq_def]
    split
    · rename_i ds heq
      have hm : '-' ∈ natReprChars n.natAbs := by
        rw [heq]
        exact List.mem_cons_self _ _
      exact absurd (hdig '-' hm) (by decide)
    · rw [if_pos ⟨hne, hall⟩, Option.some.injEq, hval]
      omega

theorem intParse_head_fail (c : Char) (cs : List Char) (h1 : isDigitChar c = false)
    (h2 : c ≠ '-') : intParse (c :: cs) = Option.none := by
  rw [intParse.eq_def]
  split
  · rename_i ds heq
    injection heq with ha hb
    exact absurd ha h2
  · rw [if_neg]
    rintro ⟨-, hall⟩
    have h3 := List.all_eq_true.mp hall c (List.mem_cons_self _ _)
    rw [h1] at h3
    exact Bool.false_ne_true h3

theorem floatParse_quote (cs : List Char) : floatParse ('"' :: cs) = Option.none := by
  rw [floatParse.eq_def]
  dsimp only
  split
  · rename_i ds heq
    injection heq with ha hb
    exact absurd ha (by decide)
  · split
    · rename_i fp heq2
      rw [if_neg]
      · rfl
      · rintro ⟨hip, -, hipall, -⟩
        have hipeq : ('"' :: cs).takeWhile (fun c => decide (c ≠ '.')) =
            '"' :: cs.takeWhile (fun c => decide (c ≠ '.')) := by
          rw [List.takeWhile_cons]
          simp
        rw [hipeq] at hipall
        have h3 := List.all_eq_true.mp hipall '"' (List.mem_cons_self _ _)
        exact absurd h3 (by decide)
    · rfl

theorem strParse_dumps (s : String) :
    strParse ('"' :: (jsonEscape s.toList ++ ['"'])) = some s := by
  have hlen : ('"' :: (jsonEscape s.toList ++ ['"'])).length ≥ 2 := by
    simp
  have hlast : ('"' :: (jsonEscape s.toList ++ ['"'])).getLast? = some '"' := by
    rw [show ('"' :: (jsonEscape s.toList ++ ['"'])) =
        (('"' :: jsonEscape s.toList) ++ ['"']) from rfl]
    exact List.getLast?_concat _
  unfold strParse
  rw [if_pos ⟨hlen, rfl, hlast⟩]
  rw [show (('"' : Char) :: (jsonEscape s.toList ++ ['"'])).drop 1 =
      jsonEscape s.toList ++ ['"'] from rfl]
  rw [List.dropLast_concat, jsonUnescape_escape]
  rfl

theorem intRepr_ne_of_head (n : Int) (t : String) (c0 : Char) (cs0 : List Char)
    (ht : t.toList = c0 :: cs0) (hc : isDigitChar c0 = false ∧ c0 ≠ '-') :
    intRepr n ≠ t := by
  intro he
  have h2 : intReprChars n = c0 :: cs0 := by
    have h3 := congrArg String.toList he
    rwa [ht] at h3
  have hmem : c0 ∈ intReprChars n := by
    rw [h2]
    exact List.mem_cons_self _ _
  rcases intReprChars_mem n c0 hmem with hd | hd
  · rw [hc.1] at hd
    exact Bool.false_ne_true hd
  · exact hc.2 hd

theorem jsonLoadsScalar_intRepr (n : Int) : jsonLoadsScalar (intRepr n) = some (.int n) := by
  unfold jsonLoadsScalar
  rw [if_neg (intRepr_ne_of_head n "true" 't' ['r', 'u', 'e'] rfl (by decide)),
    if_neg (intRepr_ne_of_head n "false" 'f' ['a', 'l', 's', 'e'] rfl (by decide)),
    if_neg (intRepr_ne_of_head n "null" 'n' ['u', 'l', 'l'] rfl (by decide))]
  rw [show (intRepr n).toList = intReprChars n from rfl, intParse_intReprChars]

theorem jsonLoadsScalar_strDumps (s : String) :
    jsonLoadsScalar (String.mk ('"' :: (jsonEscape s.toList ++ ['"']))) = some (.str s) := by
  unfold jsonLoadsScalar
  rw [if_neg (mk_cons_ne_of_head _ _ "true" 't' ['r', 'u', 'e'] rfl (by decide)),
    if_neg (mk_cons_ne_of_head _ _ "false" 'f' ['a', 'l', 's', 'e'] rfl (by decide)),
    if_neg (mk_cons_ne_of_head _ _ "null" 'n' ['u', 'l', 'l'] rfl (by decide))]
  rw [show (String.mk ('"' :: (jsonEscape s.toList ++ ['"']))).toList =
      '"' :: (jsonEscape s.toList ++ ['"']) from rfl]
  rw [intParse_head_fail '"' _ (by decide) (by decide)]
  rw [floatParse_quote]
  rw [strParse_dumps]

theorem decodeText_of_loads (s : String) (v : Tree) (hstrip : pyStrip s = s)
    (hne : s ≠ "") (hl : jsonLoadsScalar s = some v) : decodeText s = v := by
  unfold decodeText
  rw [hstrip, if_neg hne, hl]

theorem decodeText_null : decodeText (jsonDumpsScalar Tree.null) = Tree.null := rfl

theorem decodeText_bool (b : Bool) : decodeText (jsonDumpsScalar (.bool b)) = .bool b := by
  cases b <;> rfl

theorem pyStrip_intRepr (n : Int) : pyStrip (intRepr n) = intRepr n := by
  unfold pyStrip intRepr
  rw [show (String.mk (intReprChars n)).toList = intReprChars n from rfl,
    stripChars_eq_self_of_all (intReprChars_not_ws n)]

theorem decodeText_int (n : Int) : decodeText (jsonDumpsScalar (.int n)) = .int n :=
  decodeText_of_loads (intRepr n) _ (pyStrip_intRepr n)
    (mk_ne_empty (intReprChars_ne_nil n)) (jsonLoadsScalar_intRepr n)

theorem pyStrip_strDumps (s : String) :
    pyStrip (String.mk ('"' :: (jsonEscape s.toList ++ ['"']))) =
      String.mk ('"' :: (jsonEscape s.toList ++ ['"'])) := by
  unfold pyStrip
  rw [show (String.mk ('"' :: (jsonEscape s.toList ++ ['"']))).toList =
      '"' :: (jsonEscape s.toList ++ ['"']) from rfl]
  rw [stripChars_eq_self ?h1 ?h2]
  case h1 =>
    intro c hc
    rw [List.head?_cons, Option.some.injEq] at hc
    subst hc
    rfl
  case h2 =>
    intro c hc
    rw [show ('"' :: (jsonEscape s.toList ++ ['"'])) =
        (('"' :: jsonEscape s.toList) ++ ['"']) from rfl,
      List.getLast?_concat, Option.some.injEq] at hc
    subst hc
    rfl

theorem decodeText_str (s : String) : decodeText (jsonDumpsScalar (.str s)) = .str s :=
  decodeText_of_loads _ _ (pyStrip_strDumps s) (mk_ne_empty (by simp))
    (jsonLoadsScalar_strDumps s)

/-! ### C2: XML element codec lemmas -/

theorem xmlSerializeValue_dict (tag : String) (kvs : List (String × Tree)) :
    xmlSerializeValue tag (.dict kvs) =
      ⟨tag, "", kvs.map (fun kv => xmlSerializeValue kv.1 kv.2)⟩ := by
  rw [xmlSerializeValue.eq_def]
  dsimp only
  rw [List.map_attach]
  dsimp only
  rw [List.pmap_eq_map]

theorem xmlSerializeValue_list (tag : String) (xs : List Tree) :
    xmlSerializeValue tag (.list xs) = ⟨tag, "", xs.map (xmlSerializeValue "item")⟩ := by
  rw [xmlSerializeValue.eq_def]
  dsimp only
  rw [List.map_attach]
  dsimp only
  rw [List.pmap_eq_map]

theorem xmlSerializeValue_scalar (tag : String) (t : Tree)
    (h1 : ∀ kvs, t ≠ .dict kvs) (h2 : ∀ xs, t ≠ .list xs) :
    xmlSerializeValue tag t = ⟨tag, jsonDumpsScalar t, []⟩ := by
  cases t with
  | dict kvs => exact absurd rfl (h1 kvs)
  | list xs => exact absurd rfl (h2 xs)
  | null => rw [xmlSerializeValue.eq_def]
  | bool b => rw [xmlSerializeValue.eq_def]
  | int n => rw [xmlSerializeValue.eq_def]
  | str s => rw [xmlSerializeValue.eq_def]
  | float f => rw [xmlSerializeValue.eq_def]

theorem xmlSerializeValue_tag (tag : String) (t : Tree) :
    (xmlSerializeValue tag t).tag = tag := by
  cases t <;> rw [xmlSerializeValue.eq_def]

theorem xmlDeserializeElement_nil (tag text : String) :
    xmlDeserializeElement ⟨tag, text, []⟩ = decodeText text := by
  rw [xmlDeserializeElement.eq_def]

theorem xmlDeserializeElement_cons (tag text : String) (c : XmlElement)
    (cs : List XmlElement) :
    xmlDeserializeElement ⟨tag, text, c :: cs⟩ =
      if (c :: cs).all (fun ch => ch.tag == "item") then
        Tree.list ((c :: cs).map xmlDeserializeElement)
      else Tree.dict (assocOfPairs ((c :: cs).map
        (fun ch => (ch.tag, xmlDeserializeElement ch)))) := by
  rw [xmlDeserializeElement.eq_def]
  dsimp only
  rw [List.map_attach, List.map_attach]
  dsimp only
  rw [List.pmap_eq_map, List.pmap_eq_map]

theorem xmlDeserializeElement_branch (tag text : String) (children : List XmlElement)
    (hne : children ≠ []) :
    xmlDeserializeElement ⟨tag, text, children⟩ =
      if children.all (fun ch => ch.tag == "item") then
        Tree.list (children.map xmlDeserializeElement)
      else Tree.dict (assocOfPairs (children.map
        (fun ch => (ch.tag, xmlDeserializeElement ch)))) := by
  obtain ⟨c, cs, rfl⟩ : ∃ c cs, children = c :: cs := by
    cases children with
    | nil => exact absurd rfl hne
    | cons a l => exact ⟨a, l, rfl⟩
  exact xmlDeserializeElement_cons tag text c cs

theorem pyDictSetTree_append (kvs : List (String × Tree)) (k : String) (v : Tree)
    (h : ∀ q ∈ kvs, q.1 ≠ k) : pyDictSetTree kvs k v = kvs ++ [(k, v)] := by
  have hany : ¬ (kvs.any (fun kv => kv.1 == k) = true) := by
    rw [List.any_eq_true]
    rintro ⟨q, hq, he⟩
    exact h q hq (by simpa using he)
  unfold pyDictSetTree
  rw [if_neg hany]

theorem assocOfPairs_aux (ps : List (String × Tree)) :
    ∀ acc, (ps.map Prod.fst).Nodup →
      (∀ p ∈ ps, ∀ q ∈ acc, p.1 ≠ q.1) →
      ps.foldl (fun a p => pyDictSetTree a p.1 p.2) acc = acc ++ ps := by
  induction ps with
  | nil =>
    intro acc _ _
    simp
  | cons hd tl ih =>
    intro acc hnd hdisj
    have hnd' : (hd.1 :: tl.map Prod.fst).Nodup := by simpa using hnd
    have hdisj2 : ∀ x ∈ tl, ∀ r ∈ acc ++ [hd], x.1 ≠ r.1 := by
      intro x hx r hr
      rcases List.mem_append.mp hr with hr2 | hr2
      · exact hdisj x (List.mem_cons_of_mem _ hx) r hr2
      · rw [List.mem_singleton] at hr2
        rw [hr2]
        intro he
        have hmem : hd.1 ∈ tl.map Prod.fst := by
          rw [← he]
          exact List.mem_map_of_mem _ hx
        exact (List.nodup_cons.mp hnd').1 hmem
    simp only [List.foldl_cons]
    rw [pyDictSetTree_append acc hd.1 hd.2
      (fun r hr => (hdisj hd (List.mem_cons_self _ _) r hr).symm)]
    rw [ih (acc ++ [hd]) (List.Nodup.of_cons hnd') hdisj2]
    simp

theorem assocOfPairs_self (ps : List (String × Tree))
    (hnd : (ps.map Prod.fst).Nodup) : assocOfPairs ps = ps := by
  unfold assocOfPairs
  simpa using assocOfPairs_aux ps [] hnd (by simp)

/-- Structural XML round trip for every safe tree and every enclosing tag. -/
theorem xml_decode_encode (t : Tree) (h : t.XmlSafe) :
    ∀ tag, xmlDeserializeElement (xmlSerializeValue tag t) = t := by
  induction h with
  | null =>
    intro tag
    rw [xmlSerializeValue_scalar tag _ (fun kvs => by simp) (fun xs => by simp),
      xmlDeserializeElement_nil]
    exact decodeText_null
  | bool b =>
    intro tag
    rw [xmlSerializeValue_scalar tag _ (fun kvs => by simp) (fun xs => by simp),
      xmlDeserializeElement_nil]
    exact decodeText_bool b
  | int n =>
    intro tag
    rw [xmlSerializeValue_scalar tag _ (fun kvs => by simp) (fun xs => by simp),
      xmlDeserializeElement_nil]
    exact decodeText_int n
  | str s =>
    intro tag
    rw [xmlSerializeValue_scalar tag _ (fun kvs => by simp) (fun xs => by simp),
      xmlDeserializeElement_nil]
    exact decodeText_str s
  | float f hf =>
    intro tag
    rw [xmlSerializeValue_scalar tag _ (fun kvs => by simp) (fun xs => by simp),
      xmlDeserializeElement_nil]
    exact hf
  | list xs hne hall ih =>
    intro tag
    rw [xmlSerializeValue_list]
    have hmapne : xs.map (xmlSerializeValue "item") ≠ [] := by
      intro hmap
      exact hne (List.map_eq_nil_iff.mp hmap)
    rw [xmlDeserializeElement_branch _ _ _ hmapne]
    have hallitem : (xs.map (xmlSerializeValue "item")).all
        (fun ch => ch.tag == "item") = true := by
      rw [List.all_eq_true]
      intro e he
      rw [List.mem_map] at he
      obtain ⟨y, hy, rfl⟩ := he
      rw [xmlSerializeValue_tag]
      exact beq_self_eq_true _
    rw [if_pos hallitem]
    congr 1
    rw [List.map_map]
    conv_rhs => rw [← List.map_id xs]
    exact List.map_congr_left (fun y hy => ih y hy "item")
  | dict kvs hne hnd hni hsafe ih =>
    intro tag
    rw [xmlSerializeValue_dict]
    have hmapne : kvs.map (fun kv => xmlSerializeValue kv.1 kv.2) ≠ [] := by
      intro hmap
      exact hne (List.map_eq_nil_iff.mp hmap)
    rw [xmlDeserializeElement_branch _ _ _ hmapne]
    have hno : ¬ ((kvs.map (fun kv => xmlSerializeValue kv.1 kv.2)).all
        (fun ch => ch.tag == "item") = true) := by
      intro hall2
      apply hni
      intro kv hkv
      have hmem := List.mem_map_of_mem (fun kv => xmlSerializeValue kv.1 kv.2) hkv
      have h3 := List.all_eq_true.mp hall2 _ hmem
      rw [xmlSerializeValue_tag] at h3
      simpa using h3
    rw [if_neg hno]
    have hpairs : (kvs.map (fun kv => xmlSerializeValue kv.1 kv.2)).map
        (fun ch => (ch.tag, xmlDeserializeElement ch)) = kvs := by
      rw [List.map_map]
      conv_rhs => rw [← List.map_id kvs]
      refine List.map_congr_left (fun kv hkv => ?_)
      show (((xmlSerializeValue kv.1 kv.2).tag), xmlDeserializeElement
        (xmlSerializeValue kv.1 kv.2)) = kv
      rw [xmlSerializeValue_tag, ih kv hkv kv.1]
    rw [hpairs, assocOfPairs_self kvs hnd]

theorem load_save_xml (ts : List Tree) (h : ∀ t ∈ ts, t.XmlSafe) :
    XMLFileHandler.load (XMLFileHandler.save ts) = ts := by
  unfold XMLFileHandler.save XMLFileHandler.load
  dsimp only
  have hf : ∀ e ∈ ts.map (xmlSerializeValue "item"), (e.tag == "item") = true := by
    intro e he
    rw [List.mem_map] at he
    obtain ⟨t, ht, rfl⟩ := he
    rw [xmlSerializeValue_tag]
    exact beq_self_eq_true _
  rw [List.filter_eq_self.mpr hf, List.map_map]
  conv_rhs => rw [← List.map_id ts]
  exact List.map_congr_left (fun t ht => xml_decode_encode t (h t ht) "item")

/-- C2 (amended): the structural XML codec round-trips every tree built from
entity serialization whose sequences and mappings are non-empty, whose
mapping keys are unique and not uniformly `item`, and whose floats are
repr-canonical; the same holds through `save`/`load` for a batch, and `None`
is distinguished from the empty string.  An empty sequence (or mapping)
instead decodes as `None` — see the counterexample. -/
theorem xml_structural_roundtrip :
    (∀ t : Tree, t.XmlSafe → ∀ tag, xmlDeserializeElement (xmlSerializeValue tag t) = t) ∧
    (∀ ts : List Tree, (∀ t ∈ ts, t.XmlSafe) →
      XMLFileHandler.load (XMLFileHandler.save ts) = ts) ∧
    xmlDeserializeElement (xmlSerializeValue "item" Tree.null) = Tree.null ∧
    xmlDeserializeElement (xmlSerializeValue "item" (Tree.str "")) = Tree.str "" :=
  ⟨xml_decode_encode, load_save_xml,
   xml_decode_encode Tree.null Tree.XmlSafe.null "item",
   xml_decode_encode (Tree.str "") (Tree.XmlSafe.str "") "item"⟩

/-- C2 witness: the amended round trip on a concrete entity-shaped tree with
every scalar kind, both directly and through `save`/`load`. -/
theorem xml_structural_roundtrip_witness :
    xmlDeserializeElement (xmlSerializeValue "item" c2_tree) = c2_tree ∧
    XMLFileHandler.load (XMLFileHandler.save [c2_tree]) = [c2_tree] := by
  have hsafe : c2_tree.XmlSafe := by
    refine Tree.XmlSafe.dict _ (by simp) (by decide) (by decide) ?_
    intro kv hkv
    fin_cases hkv
    · exact Tree.XmlSafe.str _
    · refine Tree.XmlSafe.list _ (by simp) ?_
      intro x hx
      rw [List.mem_singleton] at hx
      subst hx
      exact Tree.XmlSafe.str _
    · exact Tree.XmlSafe.bool _
    · exact Tree.XmlSafe.int _
    · exact Tree.XmlSafe.str _
    · exact Tree.XmlSafe.null
    · exact Tree.XmlSafe.float _ rfl
  refine ⟨xml_structural_roundtrip.1 c2_tree hsafe "item",
    xml_structural_roundtrip.2.1 [c2_tree] ?_⟩
  intro t ht
  rw [List.mem_singleton] at ht
  subst ht
  exact hsafe

/-- C2 counterexample: an empty sequence does not round-trip — it encodes as
a childless, textless element, which decodes as `None`; and a mapping whose
only key is `item` decodes as a sequence. -/
theorem xml_empty_list_counterexample :
    xmlDeserializeElement
        (xmlSerializeValue "item" (Tree.dict [("collaborator_ids", Tree.list [])])) =
      Tree.dict [("collaborator_ids", Tree.null)] ∧
    Tree.dict [("collaborator_ids", Tree.null)] ≠
      Tree.dict [("collaborator_ids", Tree.list [])] ∧
    xmlDeserializeElement (xmlSerializeValue "item" (Tree.dict [("item", Tree.int 1)])) =
      Tree.list [Tree.int 1] := by
  refine ⟨?_, by simp, ?_⟩
  · rw [xmlSerializeValue_dict]
    simp only [List.map_cons, List.map_nil]
    rw [xmlSerializeValue_list]
    simp only [List.map_nil]
    rw [xmlDeserializeElement_cons]
    rw [if_neg (by decide)]
    simp only [List.map_cons, List.map_nil]
    rw [xmlDeserializeElement_nil]
    rfl
  · rw [xmlSerializeValue_dict]
    simp only [List.map_cons, List.map_nil]
    rw [xmlSerializeValue_scalar _ _ (fun kvs => by simp) (fun xs => by simp)]
    rw [xmlDeserializeElement_cons]
    rw [if_pos (by decide)]
    simp only [List.map_cons, List.map_nil]
    rw [xmlDeserializeElement_nil]
    rw [show decodeText (jsonDumpsScalar (Tree.int 1)) = Tree.int 1 from decodeText_int 1]

end MusicApp
